/-
Verification of the kasplex-indexer-rust core: a shallow embedding of the
token-state data model (src/storage/types.rs), the amount validators and
affected-set helpers (src/operations/mod.rs, deploy.rs, burn.rs), the
operation executors (src/operations/mint.rs, transfer.rs, blacklist.rs,
burn.rs), the script-input keep logic and fee table
(src/utils/script_parser.rs), and the RocksDB persist/rewind machinery
(src/explorer/rollback.rs, src/explorer/scanner.rs).

Modelling conventions:
- Rust HashMap slices become association lists (SMap) with insert-replace
  and first-match lookup; insertion order stands in for the map, and the
  theorems that depend on per-key contents carry Nodup hypotheses.
- Rust u64/u128 arithmetic is Nat, with an explicit % 2^64 where the source
  can wrap (the fee computation); saturating_sub is Nat subtraction.
- Decimal-string fields (balances, supplies) stay String as in the source;
  .parse().unwrap_or(0) is modelled by parseOrZero below, and .to_string()
  by toString, which agrees with the Rust Display for Nat.
- The address codec (utils/address.rs verify_address) is out of the core
  per the specification, which treats it as an opaque pure collaborator;
  executors take it as an explicit function parameter va.
- A Rust .unwrap() panic on a value the embedding represents as Option is
  modelled by a default value; all theorems constrain execution to the
  panic-free paths through their hypotheses.
- Rust error strings that contain single-quote characters are paraphrased
  without the quotes; no theorem depends on those particular strings.
-/
import Mathlib

namespace Kasplex

/-- Association-list map with String keys, modelling the Rust HashMap
slices (first-match lookup, insert replaces an existing key). -/
abbrev SMap (α : Type) : Type := List (String × α)

namespace SMap

/-- Lookup, modelling HashMap::get (returns the entry for the key). -/
def get? {α : Type} : SMap α → String → Option α
  | [], _ => none
  | (k, v) :: t, k0 => if k = k0 then some v else get? t k0

/-- Insert, modelling HashMap::insert (replaces an existing entry). -/
def insert {α : Type} : SMap α → String → α → SMap α
  | [], k0, v0 => [(k0, v0)]
  | (k, v) :: t, k0, v0 => if k = k0 then (k0, v0) :: t else (k, v) :: insert t k0 v0

/-- Membership test, modelling HashMap::contains_key. -/
def containsKey {α : Type} (m : SMap α) (k : String) : Bool :=
  (get? m k).isSome

/-- The list of keys of the map. -/
def keysOf {α : Type} (m : SMap α) : List String :=
  m.map Prod.fst

end SMap

/-- Token state row, from storage/types.rs StateTokenType.  The Rust
`from`/`to` fields are named from_addr/to_addr (Lean keywords). -/
structure StateTokenType where
  tick : String
  max : String
  lim : String
  pre : String
  dec : Int
  mod_type : String
  from_addr : String
  to_addr : String
  minted : String
  burned : String
  name : String
  tx_id : String
  op_add : Nat
  op_mod : Nat
  mts_add : Int
  mts_mod : Int
  deriving DecidableEq, Repr, Inhabited

/-- Balance state row, from storage/types.rs StateBalanceType. -/
structure StateBalanceType where
  address : String
  tick : String
  dec : Int
  balance : String
  locked : String
  op_mod : Nat
  deriving DecidableEq, Repr, Inhabited

/-- Market state row, from storage/types.rs StateMarketType. -/
structure StateMarketType where
  tick : String
  t_addr : String
  u_tx_id : String
  u_addr : String
  u_amt : String
  u_script : String
  t_amt : String
  op_add : Nat
  deriving DecidableEq, Repr, Inhabited

/-- Blacklist state row, from storage/types.rs StateBlacklistType. -/
structure StateBlacklistType where
  tick : String
  address : String
  op_add : Nat
  deriving DecidableEq, Repr, Inhabited

/-- Decoded operation script, from storage/types.rs DataScriptType. -/
structure DataScriptType where
  p : String
  op : String
  from_addr : Option String
  to_addr : Option String
  tick : Option String
  max : Option String
  lim : Option String
  pre : Option String
  dec : Option String
  amt : Option String
  utxo : Option String
  price : Option String
  mod_type : String
  name : Option String
  ca : Option String
  deriving DecidableEq, Repr, Inhabited

/-- Affected-set statistics, from storage/types.rs DataStatsType. -/
structure DataStatsType where
  tick_affc : List String
  address_affc : List String
  deriving DecidableEq, Repr, Inhabited

/-- One operation record, from storage/types.rs DataOperationType. -/
structure DataOperationType where
  tx_id : String
  daa_score : Nat
  block_accept : String
  fee : Nat
  fee_least : Nat
  mts_add : Int
  op_score : Nat
  op_accept : Int
  op_error : String
  op_script : List DataScriptType
  script_sig : String
  st_before : List String
  st_after : List String
  checkpoint : String
  ss_info : Option DataStatsType
  deriving DecidableEq, Repr, Inhabited

/-- Serialized per-operation state, from storage/types.rs DataOpStateType. -/
structure DataOpStateType where
  block_accept : Option String
  fee : Option Nat
  fee_least : Option Nat
  mts_add : Option Int
  op_score : Option Nat
  op_accept : Option Int
  op_error : Option String
  checkpoint : Option String
  deriving DecidableEq, Repr, Inhabited

/-- A VSPC ring entry, from storage/types.rs DataVspcType. -/
structure DataVspcType where
  daa_score : Nat
  hash : String
  tx_id_list : List String
  deriving DecidableEq, Repr, Inhabited

/-- The four-table state slice, from storage/types.rs DataStateMapType. -/
structure DataStateMapType where
  state_token_map : SMap (Option StateTokenType)
  state_balance_map : SMap (Option StateBalanceType)
  state_market_map : SMap (Option StateMarketType)
  state_blacklist_map : SMap (Option StateBlacklistType)
  deriving DecidableEq, Repr, Inhabited

/-- The empty state slice, from DataStateMapType::new. -/
def DataStateMapType.new : DataStateMapType :=
  { state_token_map := [], state_balance_map := []
    state_market_map := [], state_blacklist_map := [] }

/-- One rollback record, from storage/types.rs DataRollbackType. -/
structure DataRollbackType where
  state_map_before : DataStateMapType
  state_map_after : DataStateMapType
  op_score_list : List Nat
  tx_id_list : List String
  daa_score_start : Nat
  daa_score_end : Nat
  checkpoint_before : String
  checkpoint_after : String
  op_score_last : Nat
  deriving DecidableEq, Repr, Inhabited

/-- OP_RANGE_BY from storage/types.rs. -/
def OP_RANGE_BY : Nat := 100000

/-- Numeric value of a list of decimal digit characters (most significant
first), the value denoted by a Rust decimal string. -/
def digitsVal (l : List Char) : Nat :=
  l.foldl (fun a c => a * 10 + (c.toNat - '0'.toNat)) 0

/-- Byte-wise lexicographic strict order on char lists; on ASCII strings
this is the Rust &str Ord used by `amount_str > limit`. -/
def lexLtChars : List Char → List Char → Bool
  | [], [] => false
  | [], _ :: _ => true
  | _ :: _, [] => false
  | a :: as_, b :: bs => if a.toNat < b.toNat then true
      else if b.toNat < a.toNat then false else lexLtChars as_ bs

/-- The 32-nines amount ceiling from operations/mod.rs validate_amount. -/
def AMOUNT_LIMIT : String := "99999999999999999999999999999999"

/-- operations/mod.rs validate_amount: nonempty, all ASCII digits, not the
literal "0", at most 32 characters, and at exactly 32 characters not
lexicographically above the 32-nines limit.  (The Rust function also
rewrites an empty input to "0" before returning false; only the Boolean
matters to any caller that proceeds.) -/
def validate_amount (s : String) : Bool :=
  if s.data.isEmpty then false
  else if !(s.data.all (fun c => c.isDigit)) then false
  else if s = "0" then false
  else if s.data.length > AMOUNT_LIMIT.data.length then false
  else if s.data.length = AMOUNT_LIMIT.data.length
          && lexLtChars AMOUNT_LIMIT.data s.data then false
  else true

/-- Rust unsigned-integer FromStr (as used by .parse::<u64>() and
.parse::<u128>()): an optional leading plus sign, then one or more decimal
digits, with the value below the type bound; anything else is an error. -/
def rustParseNat (bound : Nat) (s : String) : Option Nat :=
  match s.data with
  | [] => none
  | c :: rest =>
      let ds := if c = '+' then rest else c :: rest
      if ds.isEmpty then none
      else if ds.all (fun c2 => c2.isDigit) then
        if digitsVal ds < bound then some (digitsVal ds) else none
      else none

/-- Models .parse::<uN>().unwrap_or(0). -/
def parseOrZero (bound : Nat) (s : String) : Nat :=
  (rustParseNat bound s).getD 0

namespace DeployOperation

/-- deploy.rs DeployOperation::validate_amount: empty is rewritten to "0"
and rejected; otherwise the string is accepted iff it parses as u64. -/
def validate_amount (s : String) : Bool :=
  if s.data.isEmpty then false else (rustParseNat (2 ^ 64) s).isSome

/-- deploy.rs DeployOperation::fee_least. -/
def fee_least (_daa_score : Nat) : Nat := 100000000000

end DeployOperation

/-- operations/mod.rs append_ss_info_tick_affc: replace the first line that
starts with the key by "key:value", else push "key:value". -/
def append_ss_info_tick_affc : List String → String → Int → List String
  | [], key, v => [key ++ ":" ++ toString v]
  | line :: rest, key, v =>
      if key.data.isPrefixOf line.data then (key ++ ":" ++ toString v) :: rest
      else line :: append_ss_info_tick_affc rest key v

/-- Split a character list at every occurrence of a separator character,
the char-level behaviour of Rust str::split. -/
def splitOnChar (c : Char) : List Char → List (List Char)
  | [] => [[]]
  | x :: xs =>
      if x = c then [] :: splitOnChar c xs
      else
        match splitOnChar c xs with
        | [] => [[x]]
        | h :: t => (x :: h) :: t

/-- operations/mod.rs append_ss_info_address_affc: replace the entry whose
part before the first = equals the key by "key=value", else push. -/
def append_ss_info_address_affc : List String → String → String → List String
  | [], key, v => [key ++ "=" ++ v]
  | line :: rest, key, v =>
      if (splitOnChar '=' line.data).length ≥ 2
          && (splitOnChar '=' line.data).headD [] = key.data then
        (key ++ "=" ++ v) :: rest
      else line :: append_ss_info_address_affc rest key v

/-- operations/mod.rs make_st_line_balance. -/
def make_st_line_balance (key : String) (b : Option StateBalanceType) : String :=
  match b with
  | none => "stbalance_" ++ key
  | some bal =>
      "stbalance_" ++ key ++ "," ++ toString bal.dec ++ "," ++ bal.balance
        ++ "," ++ bal.locked ++ "," ++ toString bal.op_mod

/-- operations/mod.rs append_st_line_balance: when a line starting with
"stbalance_key" exists it is replaced only when is_after; otherwise the
fresh line is pushed. -/
def append_st_line_balance :
    List String → String → Option StateBalanceType → Bool → List String
  | [], key, b, _ => [make_st_line_balance key b]
  | line :: rest, key, b, is_after =>
      if ("stbalance_" ++ key).data.isPrefixOf line.data then
        if is_after then make_st_line_balance key b :: rest else line :: rest
      else line :: append_st_line_balance rest key b is_after

/-- operations/mod.rs make_st_line_token. -/
def make_st_line_token (key : String) (t : Option StateTokenType)
    (is_deploy : Bool) : String :=
  match t with
  | none => "sttoken_" ++ key
  | some tok =>
      "sttoken_" ++ key ++ ","
        ++ (if is_deploy then
              tok.max ++ "," ++ tok.lim ++ "," ++ tok.pre ++ ","
                ++ toString tok.dec ++ "," ++ tok.from_addr ++ ","
            else "")
        ++ tok.minted ++ "," ++ toString tok.op_mod ++ ","
        ++ (if tok.mod_type = "issue" then
              tok.mod_type ++ "," ++ tok.burned ++ "," ++ tok.name
            else "")

/-- operations/mod.rs append_st_line_token. -/
def append_st_line_token :
    List String → String → Option StateTokenType → Bool → Bool → List String
  | [], key, t, is_deploy, _ => [make_st_line_token key t is_deploy]
  | line :: rest, key, t, is_deploy, is_after =>
      if ("sttoken_" ++ key).data.isPrefixOf line.data then
        if is_after then make_st_line_token key t is_deploy :: rest
        else line :: rest
      else line :: append_st_line_token rest key t is_deploy is_after

/-- script_parser.rs ScriptParser::is_op_recycle: membership of the opcode
in the recyclable array ["mint", "burn", "transfer", "send"]. -/
def is_op_recycle (op : String) : Bool :=
  op = "mint" || op = "burn" || op = "transfer" || op = "send"

/-- script_parser.rs ScriptParser::get_operation_fee: the parser-side fee
table, switching between an old and a new value at daa score 110165000. -/
def get_operation_fee (op : String) (daa_score : Nat) : Nat :=
  if op = "deploy" then (if daa_score ≥ 110165000 then 100000000000 else 50000000000)
  else if op = "mint" then (if daa_score ≥ 110165000 then 100000000 else 50000000)
  else if op = "transfer" then 0
  else if op = "send" then (if daa_score ≥ 110165000 then 200000000 else 100000000)
  else if op = "issue" then (if daa_score ≥ 110165000 then 400000000 else 200000000)
  else if op = "list" then (if daa_score ≥ 110165000 then 100000000 else 50000000)
  else if op = "chown" then (if daa_score ≥ 110165000 then 800000000 else 400000000)
  else if op = "blacklist" then (if daa_score ≥ 110165000 then 600000000 else 300000000)
  else 0

/-- The input-keeping loop of script_parser.rs parse_op_data, indexed by
the input position: each list element is the decoded-and-validated script
of one transaction input (none when that input was skipped).  The script of
input 0 is always kept; a script of a later input is kept iff its opcode is
recyclable. -/
def keep_op_scripts : Nat → List (Option DataScriptType) → List DataScriptType
  | _, [] => []
  | i, none :: rest => keep_op_scripts (i + 1) rest
  | 0, some s :: rest => s :: keep_op_scripts 1 rest
  | i + 1, some s :: rest =>
      if is_op_recycle s.op then s :: keep_op_scripts (i + 2) rest
      else keep_op_scripts (i + 2) rest

/-- parse_op_data starts its input walk at index 0. -/
def parse_op_scripts (inputs : List (Option DataScriptType)) : List DataScriptType :=
  keep_op_scripts 0 inputs

/-- The fee computation of script_parser.rs parse_op_data_list for an
operation with fee_least > 0: amount_in = amount_out + fee_least in u64
arithmetic, then fee = 0 when amount_in <= amount_out else the
difference. -/
def assign_fee (fee_least amount_out : Nat) : Nat :=
  let amount_in := (amount_out + fee_least) % 2 ^ 64
  if amount_in ≤ amount_out then 0 else amount_in - amount_out

namespace MintOperation

/-- mint.rs MintOperation::fee_least (a constant in the Rust source). -/
def fee_least (_daa_score : Nat) : Nat := 100000000

/-- mint.rs MintOperation::do_operation.  The trailing debug printlns of
the source are pure logging and are not modelled.  The va parameter is
utils/address.rs verify_address. -/
def do_operation (va : String → Bool → Bool) (index : Nat)
    (op_data : DataOperationType) (state_map : DataStateMapType)
    (testnet : Bool) : DataOperationType × DataStateMapType :=
  match op_data.op_script.get? index with
  | none => (op_data, state_map)
  | some s =>
    let rejected := fun (msg : String) =>
      ({ op_data with op_accept := -1, op_error := msg }, state_map)
    let afterTickCheck : Option (DataOperationType × DataStateMapType) :=
      match s.tick with
      | some tick =>
          match state_map.state_token_map.get? tick with
          | some (some token) =>
              if token.mod_type ≠ "" ∧ token.mod_type ≠ "0" then
                some (rejected "mode invalid")
              else none
          | some none => some (rejected "tick not found")
          | none => some (rejected "tick not found")
      | none => none
    match afterTickCheck with
    | some r => r
    | none =>
      if op_data.fee = 0 then rejected "fee unknown"
      else if op_data.fee < fee_least op_data.op_score then
        rejected "fee not enough"
      else if !(va (s.to_addr.getD "") testnet) then rejected "address invalid"
      else
        let key_balance := s.to_addr.getD "" ++ "_" ++ s.tick.getD ""
        let st_token := (state_map.state_token_map.get? (s.tick.getD "")).getD none
        let st_balance := (state_map.state_balance_map.get? key_balance).getD none
        let token := st_token.getD default
        let amt := token.lim
        let max_big := parseOrZero (2 ^ 128) token.max
        let minted_big := parseOrZero (2 ^ 128) token.minted
        let left_big := max_big - minted_big
        if left_big = 0 then rejected "mint finished"
        else
          let lim_big := parseOrZero (2 ^ 128) amt
          let final_amt := if lim_big > left_big then left_big else lim_big
          let new_minted_str := toString (minted_big + final_amt)
          let stb0 := append_st_line_token [] (s.tick.getD "") st_token false false
          let stb1 := append_st_line_balance stb0 key_balance st_balance false
          let new_st_token :=
            { token with minted := new_minted_str, op_mod := op_data.op_score
                         mts_mod := op_data.mts_add }
          let tokenMap1 :=
            state_map.state_token_map.insert (s.tick.getD "") (some new_st_token)
          let new_st_balance0 :=
            match st_balance with
            | some b => b
            | none =>
                { address := s.to_addr.getD "", tick := s.tick.getD ""
                  dec := new_st_token.dec, balance := "0", locked := "0"
                  op_mod := op_data.op_score }
          let balance_big := parseOrZero (2 ^ 128) new_st_balance0.balance
          let new_balance := balance_big + final_amt
          let new_st_balance :=
            { new_st_balance0 with balance := toString new_balance
                                   op_mod := op_data.op_score }
          let balanceMap1 :=
            state_map.state_balance_map.insert key_balance (some new_st_balance)
          let n_tick_affc : Int := if st_balance = none then 1 else 0
          let ss0 := op_data.ss_info.getD default
          let affc1 :=
            append_ss_info_tick_affc ss0.tick_affc (s.tick.getD "") n_tick_affc
          let ss1 := { ss0 with tick_affc := affc1 }
          let locked_big := parseOrZero (2 ^ 128) new_st_balance.locked
          let balance_total := new_balance + locked_big
          let affc2 :=
            append_ss_info_address_affc ss1.address_affc key_balance
              (toString balance_total)
          let ss2 := { ss1 with address_affc := affc2 }
          let sta0 := append_st_line_token [] (s.tick.getD "") (some new_st_token) false true
          let sta1 := append_st_line_balance sta0 key_balance (some new_st_balance) true
          ({ op_data with st_before := stb1, st_after := sta1
                          ss_info := some ss2, op_accept := 1 },
           { state_map with state_token_map := tokenMap1
                            state_balance_map := balanceMap1 })

end MintOperation

namespace TransferOperation

/-- transfer.rs TransferOperation::fee_least. -/
def fee_least (_daa_score : Nat) : Nat := 0

/-- transfer.rs TransferOperation::prepare_state_key: the token key is the
tick, the balance keys are "addr_tick" for both ends, and the blacklist
lookup key is "tick_from". -/
def prepare_state_key (s : DataScriptType) (m : DataStateMapType) :
    DataStateMapType :=
  let tok :=
    match s.tick with
    | some tick =>
        if m.state_token_map.containsKey tick then m.state_token_map
        else m.state_token_map.insert tick none
    | none => m.state_token_map
  let bal1 :=
    match s.from_addr, s.tick with
    | some from0, some tick => m.state_balance_map.insert (from0 ++ "_" ++ tick) none
    | _, _ => m.state_balance_map
  let bal2 :=
    match s.to_addr, s.tick with
    | some to0, some tick => bal1.insert (to0 ++ "_" ++ tick) none
    | _, _ => bal1
  let blk :=
    match s.tick, s.from_addr with
    | some tick, some from0 =>
        m.state_blacklist_map.insert (tick ++ "_" ++ from0) none
    | _, _ => m.state_blacklist_map
  { m with state_token_map := tok, state_balance_map := bal2
           state_blacklist_map := blk }

/-- transfer.rs TransferOperation::do_operation.  The blacklist check reads
the key "tick_from" from the blacklist slice.  Error strings that carry
quoted values in the source are paraphrased without the quotes. -/
def do_operation (va : String → Bool → Bool) (index : Nat)
    (op_data : DataOperationType) (state_map : DataStateMapType)
    (testnet : Bool) : DataOperationType × DataStateMapType :=
  match op_data.op_script.get? index with
  | none => (op_data, state_map)
  | some s =>
    let rejected := fun (d : DataOperationType) (msg : String) =>
      ({ d with op_accept := -1, op_error := msg }, state_map)
    let tickMissing : Bool :=
      match s.tick with
      | some tick =>
          match state_map.state_token_map.get? tick with
          | some (some _) => false
          | some none => true
          | none => true
      | none => false
    if tickMissing then rejected op_data "Token not found"
    else
      let blacklisted : Bool :=
        match s.tick, s.from_addr with
        | some tick, some from0 =>
            ((state_map.state_blacklist_map.get? (tick ++ "_" ++ from0)).getD
              none).isSome
        | _, _ => false
      if blacklisted then rejected op_data "Address is blacklisted for token"
      else if s.from_addr = s.to_addr then
        rejected op_data "Cannot transfer to the same address"
      else if (match s.to_addr with
               | some to0 => !(va to0 testnet)
               | none => false) then
        rejected op_data "Invalid address"
      else
        let tick := s.tick.getD ""
        let from0 := s.from_addr.getD ""
        let to0 := s.to_addr.getD ""
        let key_balance_from := from0 ++ "_" ++ tick
        let key_balance_to := to0 ++ "_" ++ tick
        let st_balance_from :=
          (state_map.state_balance_map.get? key_balance_from).getD none
        let st_balance_to :=
          (state_map.state_balance_map.get? key_balance_to).getD none
        let token := ((state_map.state_token_map.get? tick).getD none).getD default
        let s1 := { s with name := some token.name }
        let op_data1 := { op_data with op_script := op_data.op_script.set index s1 }
        match st_balance_from with
        | none => rejected op_data1 "Insufficient balance for token"
        | some balance_from =>
          let balance_big := parseOrZero (2 ^ 128) balance_from.balance
          let amt_big := parseOrZero (2 ^ 128) (s.amt.getD "0")
          if amt_big > balance_big then
            rejected op_data1 "Insufficient balance"
          else
            let n_tick_affc : Int :=
              if amt_big = balance_big ∧ balance_from.locked = "0" then -1 else 0
            let stb0 := append_st_line_balance [] key_balance_from
              st_balance_from false
            let stb1 := append_st_line_balance stb0 key_balance_to
              st_balance_to false
            let new_balance_from := balance_big - amt_big
            let new_st_balance_from :=
              { balance_from with balance := toString new_balance_from
                                  op_mod := op_data.op_score }
            let locked_big := parseOrZero (2 ^ 128) new_st_balance_from.locked
            let balance_from_total := new_balance_from + locked_big
            let new_st_balance_to0 :=
              match st_balance_to with
              | some balance_to => balance_to
              | none =>
                  { address := s.to_addr.getD "", tick := s.tick.getD ""
                    dec := balance_from.dec, balance := "0", locked := "0"
                    op_mod := op_data.op_score }
            let balance_to_big := parseOrZero (2 ^ 128) new_st_balance_to0.balance
            let new_balance_to := balance_to_big + amt_big
            let new_st_balance_to :=
              { new_st_balance_to0 with balance := toString new_balance_to
                                        op_mod := op_data.op_score }
            let locked_to_big := parseOrZero (2 ^ 128) new_st_balance_to.locked
            let balance_to_total := new_balance_to + locked_to_big
            let balMap1 := state_map.state_balance_map.insert key_balance_from
              (some new_st_balance_from)
            let balMap2 := balMap1.insert key_balance_to (some new_st_balance_to)
            let ss0 := op_data1.ss_info.getD default
            let affc1 :=
              append_ss_info_tick_affc ss0.tick_affc (s.tick.getD "") n_tick_affc
            let affc2 := append_ss_info_address_affc ss0.address_affc
              key_balance_from (toString balance_from_total)
            let affc3 := append_ss_info_address_affc affc2 key_balance_to
              (toString balance_to_total)
            let ss1 := { ss0 with tick_affc := affc1, address_affc := affc3 }
            let sta0 := append_st_line_balance [] key_balance_from
              (some new_st_balance_from) true
            let sta1 := append_st_line_balance sta0 key_balance_to
              (some new_st_balance_to) true
            let balMap3 :=
              if new_st_balance_from.balance = "0" ∧ new_st_balance_from.locked = "0"
              then balMap2.insert key_balance_from none
              else balMap2
            ({ op_data1 with st_before := stb1, st_after := sta1
                             ss_info := some ss1, op_accept := 1 },
             { state_map with state_balance_map := balMap3 })

end TransferOperation

namespace BlacklistOperation

/-- blacklist.rs BlacklistOperation::fee_least. -/
def fee_least (_daa_score : Nat) : Nat := 600000000

/-- blacklist.rs BlacklistOperation::prepare_state_key: the token key is
the tick (inserted unconditionally) and the blacklist key is
"blacklist:to:tick". -/
def prepare_state_key (s : DataScriptType) (m : DataStateMapType) :
    DataStateMapType :=
  let tok :=
    match s.tick with
    | some tick => m.state_token_map.insert tick none
    | none => m.state_token_map
  let blk :=
    match s.to_addr, s.tick with
    | some to0, some tick =>
        m.state_blacklist_map.insert ("blacklist:" ++ to0 ++ ":" ++ tick) none
    | _, _ => m.state_blacklist_map
  { m with state_token_map := tok, state_blacklist_map := blk }

/-- blacklist.rs BlacklistOperation::execute: inserts the blacklist row
under the key "blacklist:to:tick". -/
def execute (s : DataScriptType) (m : DataStateMapType) :
    Except String DataStateMapType :=
  match s.tick with
  | none => Except.error "Missing tick"
  | some tick =>
    match s.to_addr with
    | none => Except.error "Missing to address"
    | some to0 =>
        let row : StateBlacklistType := { tick := tick, address := to0, op_add := 0 }
        let bmap :=
          m.state_blacklist_map.insert ("blacklist:" ++ to0 ++ ":" ++ tick) (some row)
        Except.ok { m with state_blacklist_map := bmap }

/-- blacklist.rs BlacklistOperation::do_operation: clones the script at the
index and delegates to execute (the op_accept field is left untouched). -/
def do_operation (index : Nat) (op_data : DataOperationType)
    (m : DataStateMapType) (_testnet : Bool) :
    Except String (DataOperationType × DataStateMapType) :=
  match op_data.op_script.get? index with
  | none => Except.error "index out of bounds"
  | some s =>
      match execute s m with
      | Except.ok m1 => Except.ok (op_data, m1)
      | Except.error e => Except.error e

end BlacklistOperation

namespace BurnOperation

/-- burn.rs BurnOperation::fee_least. -/
def fee_least (_daa_score : Nat) : Nat := 600000000

/-- burn.rs BurnOperation::validate_amount: the string must parse as u64
and be positive. -/
def validate_amount (s : String) : Bool :=
  if s.data.isEmpty then false
  else
    match rustParseNat (2 ^ 64) s with
    | some v => decide (0 < v)
    | none => false

/-- burn.rs BurnOperation::prepare_state_key: the token key is the tick,
the balance key is "balance:from:tick". -/
def prepare_state_key (s : DataScriptType) (m : DataStateMapType) :
    DataStateMapType :=
  let tok :=
    match s.tick with
    | some tick =>
        if m.state_token_map.containsKey tick then m.state_token_map
        else m.state_token_map.insert tick none
    | none => m.state_token_map
  let bal :=
    match s.from_addr, s.tick with
    | some from0, some tick =>
        m.state_balance_map.insert ("balance:" ++ from0 ++ ":" ++ tick) none
    | _, _ => m.state_balance_map
  { m with state_token_map := tok, state_balance_map := bal }

/-- burn.rs BurnOperation::execute.  The token update reads the key
"token:tick" and the balance update reads "balance:from:tick"; when either
key is absent from the slice, or present with a None value, the
corresponding update is silently skipped (the source wraps both in
if-let).  The returned map carries any mutation applied before an error,
matching the &mut semantics of the source. -/
def execute (s : DataScriptType) (m : DataStateMapType) :
    DataStateMapType × Option String :=
  match s.tick with
  | none => (m, some "Missing tick")
  | some tick =>
    match s.from_addr with
    | none => (m, some "Missing from address")
    | some from0 =>
      match s.amt with
      | none => (m, some "Missing amount")
      | some amount =>
        let burn_amount := parseOrZero (2 ^ 64) amount
        if burn_amount = 0 then (m, some "Invalid burn amount")
        else
          let token_key := "token:" ++ tick
          let tokenStep : DataStateMapType × Option String :=
            match m.state_token_map.get? token_key with
            | some (some token_data) =>
                let current_minted := parseOrZero (2 ^ 64) token_data.minted
                if current_minted ≥ burn_amount then
                  let td1 :=
                    { token_data with
                        minted := toString (current_minted - burn_amount) }
                  let tmap1 := m.state_token_map.insert token_key (some td1)
                  ({ m with state_token_map := tmap1 }, none)
                else (m, some "Cannot burn more than minted")
            | some none => (m, none)
            | none => (m, none)
          match tokenStep with
          | (_, some e) => (tokenStep.1, some e)
          | (m1, none) =>
            let balance_key := "balance:" ++ from0 ++ ":" ++ tick
            match m1.state_balance_map.get? balance_key with
            | some (some balance_data) =>
                let current_balance := parseOrZero (2 ^ 64) balance_data.balance
                if current_balance ≥ burn_amount then
                  let bd1 :=
                    { balance_data with
                        balance := toString (current_balance - burn_amount) }
                  let bmap1 := m1.state_balance_map.insert balance_key (some bd1)
                  ({ m1 with state_balance_map := bmap1 }, none)
                else (m1, some "Insufficient balance for burn")
            | some none => (m1, none)
            | none => (m1, none)

/-- burn.rs BurnOperation::do_operation: the tick-existence check reads the
plain tick key, then execute runs; success sets op_accept = 1 and an error
sets op_accept = -1 with the message. -/
def do_operation (index : Nat) (op_data : DataOperationType)
    (state_map : DataStateMapType) (_testnet : Bool) :
    DataOperationType × DataStateMapType :=
  match op_data.op_script.get? index with
  | none => (op_data, state_map)
  | some s =>
    let tickMissing : Bool :=
      match s.tick with
      | some tick =>
          match state_map.state_token_map.get? tick with
          | some (some _) => false
          | some none => true
          | none => true
      | none => false
    if tickMissing then
      ({ op_data with op_accept := -1, op_error := "tick not found" }, state_map)
    else
      match execute s state_map with
      | (m1, none) => ({ op_data with op_accept := 1, op_error := "" }, m1)
      | (m1, some e) => ({ op_data with op_accept := -1, op_error := e }, m1)

end BurnOperation

/-- A value stored in the RocksDB byte map.  Each constructor stands for
the serde_json serialization of the corresponding structure; equal
structures serialize to equal bytes, so byte-identity of stored values is
modelled as equality of these constructors. -/
inductive KVal where
  | token (t : StateTokenType)
  | balance (b : StateBalanceType)
  | market (mk : StateMarketType)
  | blacklist (bl : StateBlacklistType)
  | opdata (op : DataOperationType)
  | oplist (tx_id : String) (state_json : DataOpStateType)
      (script_json : Option DataScriptType)
      (tick_affc address_affc : List String)
  deriving DecidableEq

/-- The RocksDB store as a byte-key map; keys are the UTF-8 character
lists of the Rust key strings. -/
abbrev KVStore : Type := List Char → Option KVal

/-- A point put into the store. -/
def kvPut (st : KVStore) (k : List Char) (v : KVal) : KVStore :=
  fun k2 => if k2 = k then some v else st k2

/-- A point delete from the store. -/
def kvDel (st : KVStore) (k : List Char) : KVStore :=
  fun k2 => if k2 = k then none else st k2

/-- Key of a token row: KEY_PREFIX_STATE_TOKEN ++ slice key. -/
def keyToken (k : String) : List Char := "sttoken_".data ++ k.data

/-- Key of a balance row: KEY_PREFIX_STATE_BALANCE ++ slice key. -/
def keyBalance (k : String) : List Char := "stbalance_".data ++ k.data

/-- Key of a market row: KEY_PREFIX_STATE_MARKET ++ slice key. -/
def keyMarket (k : String) : List Char := "stmarket_".data ++ k.data

/-- Key of a blacklist row: KEY_PREFIX_STATE_BLACKLIST ++ slice key. -/
def keyBlacklist (k : String) : List Char := "stblacklist_".data ++ k.data

/-- Key of an operation record: "opdata:tx_id" (rollback.rs). -/
def keyOpdata (tx_id : String) : List Char := "opdata:".data ++ tx_id.data

/-- Key of an operation index row: "oplist:range:score" with
range = score / OP_RANGE_BY (rollback.rs). -/
def keyOplist (op_score : Nat) : List Char :=
  "oplist:".data ++ (toString (op_score / OP_RANGE_BY)).data
    ++ ":".data ++ (toString op_score).data

/-- One table of rollback.rs RollbackManager::save_state_batch_rocks_begin:
a Some value is put under its prefixed key, a None value becomes a
delete. -/
def applyStateTable {α : Type} (keyOf : String → List Char) (enc : α → KVal)
    (m : SMap (Option α)) (st : KVStore) : KVStore :=
  m.foldl
    (fun acc e =>
      match e.2 with
      | some x => kvPut acc (keyOf e.1) (enc x)
      | none => kvDel acc (keyOf e.1))
    st

/-- rollback.rs RollbackManager::save_state_batch_rocks_begin: writes the
four tables of the slice in source order (token, balance, market,
blacklist). -/
def save_state_batch_rocks_begin (m : DataStateMapType) (st : KVStore) : KVStore :=
  applyStateTable keyBlacklist KVal.blacklist m.state_blacklist_map
    (applyStateTable keyMarket KVal.market m.state_market_map
      (applyStateTable keyBalance KVal.balance m.state_balance_map
        (applyStateTable keyToken KVal.token m.state_token_map st)))

/-- The DataOpStateType built for an operation inside
rollback.rs save_op_data_batch_rocks. -/
def mkOpState (op : DataOperationType) : DataOpStateType :=
  { block_accept := some op.block_accept, fee := some op.fee
    fee_least := some op.fee_least, mts_add := some op.mts_add
    op_score := some op.op_score, op_accept := some op.op_accept
    op_error := some op.op_error, checkpoint := some op.checkpoint }

/-- The oplist row value built for an operation inside
rollback.rs save_op_data_batch_rocks (script_json is op_script[0], or the
empty object when there is no script, modelled as none). -/
def mkOplistVal (op : DataOperationType) : KVal :=
  KVal.oplist op.tx_id (mkOpState op) op.op_script.head?
    ((op.ss_info.map DataStatsType.tick_affc).getD [])
    ((op.ss_info.map DataStatsType.address_affc).getD [])

/-- rollback.rs RollbackManager::save_op_data_batch_rocks: one
"opdata:tx_id" row per operation, then one "oplist:range:score" row per
operation, in one batch. -/
def save_op_data_batch_rocks (ops : List DataOperationType) (st : KVStore) :
    KVStore :=
  let st1 := ops.foldl (fun acc op => kvPut acc (keyOpdata op.tx_id) (KVal.opdata op)) st
  ops.foldl (fun acc op => kvPut acc (keyOplist op.op_score) (mkOplistVal op)) st1

/-- rollback.rs RollbackManager::save_op_state_batch: persists the state
slice, then the operation rows. -/
def save_op_state_batch (ops : List DataOperationType) (m : DataStateMapType)
    (st : KVStore) : KVStore :=
  save_op_data_batch_rocks ops (save_state_batch_rocks_begin m st)

/-- rollback.rs RollbackManager::delete_op_data_batch_rocks: deletes the
"oplist:range:score" row of every op_score, then the "opdata:tx_id" row of
every tx id. -/
def delete_op_data_batch_rocks (op_score_list : List Nat)
    (tx_id_list : List String) (st : KVStore) : KVStore :=
  let st1 := op_score_list.foldl (fun acc sc => kvDel acc (keyOplist sc)) st
  tx_id_list.foldl (fun acc tx => kvDel acc (keyOpdata tx)) st1

/-- rollback.rs RollbackManager::rollback_op_state_batch: errors when the
op_score list is empty or the two lists disagree in length; otherwise
writes state_map_before back into the canonical tables and deletes every
referenced oplist and opdata row.  none models the error return. -/
def rollback_op_state_batch (r : DataRollbackType) (st : KVStore) :
    Option KVStore :=
  if r.op_score_list.isEmpty then none
  else if r.op_score_list.length ≠ r.tx_id_list.length then none
  else
    some (delete_op_data_batch_rocks r.op_score_list r.tx_id_list
      (save_state_batch_rocks_begin r.state_map_before st))

/-- The while-loop of scanner.rs scan_vspc_batch that removes trailing
VSPC entries whose daa_score is at least daa_score_last. -/
def dropTailGe (l : List DataVspcType) (daa_score_last : Nat) : List DataVspcType :=
  ((l.reverse).dropWhile (fun v => decide (v.daa_score ≥ daa_score_last))).reverse

/-- Result of the rollback branch of scanner.rs scan_vspc_batch. -/
structure ScanRollbackResult where
  rollback_list : List DataRollbackType
  vspc_list : List DataVspcType
  store : KVStore
  rewound : Bool

/-- The rollback branch of scanner.rs scan_vspc_batch (entered when
rollback_daa_score > 0): with len_rollback = rollback_list.len() - 1
(saturating), the newest record rollback_list[len_rollback] is rewound
only when len_rollback > 0 AND its daa_score_end reaches
rollback_daa_score; the rewind applies rollback_op_state_batch, drops
trailing VSPC entries from daa_score_start on, and truncates the ring.
Otherwise the VSPC ring is replaced by the filtered fresh window and no
state is touched. -/
def scan_rollback_branch (rollback_list : List DataRollbackType)
    (vspc_list vspc_list_filtered : List DataVspcType)
    (rollback_daa_score : Nat) (st : KVStore) : ScanRollbackResult :=
  let len_rollback := rollback_list.length - 1
  match rollback_list.get? len_rollback with
  | some r =>
      if len_rollback > 0 ∧ r.daa_score_end ≥ rollback_daa_score then
        let st1 := (rollback_op_state_batch r st).getD st
        { rollback_list := rollback_list.take len_rollback
          vspc_list := dropTailGe vspc_list r.daa_score_start
          store := st1, rewound := true }
      else
        { rollback_list := rollback_list, vspc_list := vspc_list_filtered
          store := st, rewound := false }
  | none =>
      { rollback_list := rollback_list, vspc_list := vspc_list_filtered
        store := st, rewound := false }

/-- A concrete address codec accepting every address, used to instantiate
the opaque verify_address collaborator in closed evaluations. -/
def vaTrue : String → Bool → Bool := fun _ _ => true

/-- The TEST token of the end-to-end scenarios (deployed with max 1000000,
lim 1000, pre 500 at daa 110165000). -/
def tokTEST : StateTokenType :=
  { tick := "TEST", max := "1000000", lim := "1000", pre := "500", dec := 8
    mod_type := "", from_addr := "kaspa:A", to_addr := "kaspa:A"
    minted := "500", burned := "0", name := "", tx_id := "txdeploy"
    op_add := 1101650000000, op_mod := 1101650000000, mts_add := 0, mts_mod := 0 }

/-- A base operation record at daa 110165000 for the scenario runs. -/
def opBase : DataOperationType :=
  { tx_id := "t0", daa_score := 110165000, block_accept := "B", fee := 0
    fee_least := 0, mts_add := 7, op_score := 1101650000000, op_accept := 0
    op_error := "", op_script := [], script_sig := "", st_before := []
    st_after := [], checkpoint := ""
    ss_info := some { tick_affc := [], address_affc := [] } }

/-- A base script record with every optional field absent. -/
def scriptBase : DataScriptType :=
  { p := "KRC-20", op := "", from_addr := none, to_addr := none, tick := none
    max := none, lim := none, pre := none, dec := none, amt := none
    utxo := none, price := none, mod_type := "", name := none, ca := none }

/-- Scenario S6: the owner blacklists address kaspa:X for TEST. -/
def scriptBlacklistS6 : DataScriptType :=
  { scriptBase with op := "blacklist", from_addr := some "kaspa:A"
                    to_addr := some "kaspa:X", tick := some "TEST" }

/-- Scenario S6: the blacklisted address then transfers 1 TEST. -/
def scriptTransferS6 : DataScriptType :=
  { scriptBase with op := "transfer", from_addr := some "kaspa:X"
                    to_addr := some "kaspa:Y", tick := some "TEST"
                    amt := some "1" }

/-- Scenario S6: kaspa:X holds 5 TEST. -/
def balX5 : StateBalanceType :=
  { address := "kaspa:X", tick := "TEST", dec := 8, balance := "5"
    locked := "0", op_mod := 0 }

/-- Scenario S6: the hydrated state slice before the blacklist executes
(the "TEST_kaspa:X" blacklist lookup key prepared by the transfer is
absent on disk, hence None). -/
def stateS6 : DataStateMapType :=
  { state_token_map := [("TEST", some tokTEST)]
    state_balance_map := [("kaspa:X_TEST", some balX5), ("kaspa:Y_TEST", none)]
    state_market_map := []
    state_blacklist_map := [("TEST_kaspa:X", none)] }

/-- Scenario S6: the slice after the blacklist executor ran (its row sits
under "blacklist:kaspa:X:TEST", not under the "TEST_kaspa:X" key the
transfer reads). -/
def stateS6After : DataStateMapType :=
  { stateS6 with state_blacklist_map :=
      [("TEST_kaspa:X", none),
       ("blacklist:kaspa:X:TEST",
        some { tick := "TEST", address := "kaspa:X", op_add := 0 })] }

/-- Scenario S6 operation records. -/
def opBlacklistS6 : DataOperationType :=
  { opBase with tx_id := "t5", op_script := [scriptBlacklistS6] }

/-- Scenario S6 transfer operation record. -/
def opTransferS6 : DataOperationType :=
  { opBase with tx_id := "t6", op_script := [scriptTransferS6] }

/-- The burn failing input: token TEST with 1000 minted. -/
def tokBurn : StateTokenType := { tokTEST with minted := "1000" }

/-- The burn script: kaspa:A burns 100 TEST. -/
def scriptBurnS : DataScriptType :=
  { scriptBase with op := "burn", from_addr := some "kaspa:A"
                    tick := some "TEST", amt := some "100" }

/-- The burn operation record. -/
def opBurnS : DataOperationType :=
  { opBase with tx_id := "t3", op_script := [scriptBurnS] }

/-- The hydrated burn slice: the token loads under the plain tick key; the
balance key "balance:kaspa:A:TEST" prepared by the executor matches no
"stbalance_address_tick" row on disk, so it stays None even though the
sender holds a balance. -/
def stateBurn : DataStateMapType :=
  { state_token_map := [("TEST", some tokBurn)]
    state_balance_map := [("balance:kaspa:A:TEST", none)]
    state_market_map := [], state_blacklist_map := [] }

/-- Scenario S2/S10: the mint script for TEST to kaspa:A. -/
def scriptMintS : DataScriptType :=
  { scriptBase with op := "mint", from_addr := some "kaspa:A"
                    to_addr := some "kaspa:A", tick := some "TEST"
                    amt := some "" }

/-- kaspa:A holds 500 TEST after the pre-mint of S1. -/
def balA500 : StateBalanceType :=
  { address := "kaspa:A", tick := "TEST", dec := 8, balance := "500"
    locked := "0", op_mod := 0 }

/-- The hydrated mint slice after S1. -/
def stateMint : DataStateMapType :=
  { state_token_map := [("TEST", some tokTEST)]
    state_balance_map := [("kaspa:A_TEST", some balA500)]
    state_market_map := [], state_blacklist_map := [] }

/-- Scenario S2: the mint operation record at daa 110165000 with the
parser-assigned fee. -/
def opMintS2 : DataOperationType :=
  { opBase with tx_id := "t2m", fee := assign_fee (get_operation_fee "mint" 110165000) 0
                fee_least := get_operation_fee "mint" 110165000
                op_script := [scriptMintS] }

/-- A mint operation record produced by the batch parser at the old-fee
daa score 83441551: the fee equals the parser fee table value 50000000. -/
def opMintOld : DataOperationType :=
  { opBase with tx_id := "t10", daa_score := 83441551
                op_score := 834415510000
                fee := assign_fee (get_operation_fee "mint" 83441551) 0
                fee_least := get_operation_fee "mint" 83441551
                op_script := [scriptMintS] }

/-- Scenario S3: kaspa:A holds its full 1500 TEST with nothing locked. -/
def balA1500 : StateBalanceType :=
  { address := "kaspa:A", tick := "TEST", dec := 8, balance := "1500"
    locked := "0", op_mod := 0 }

/-- Scenario S3: the transfer of the entire balance from kaspa:A to
kaspa:B. -/
def scriptTransferS3 : DataScriptType :=
  { scriptBase with op := "transfer", from_addr := some "kaspa:A"
                    to_addr := some "kaspa:B", tick := some "TEST"
                    amt := some "1500" }

/-- Scenario S3: the hydrated slice after S2. -/
def stateS3 : DataStateMapType :=
  { state_token_map := [("TEST", some { tokTEST with minted := "1500" })]
    state_balance_map := [("kaspa:A_TEST", some balA1500), ("kaspa:B_TEST", none)]
    state_market_map := []
    state_blacklist_map := [("TEST_kaspa:A", none)] }

/-- Scenario S3 operation record. -/
def opTransferS3 : DataOperationType :=
  { opBase with tx_id := "t2", op_script := [scriptTransferS3] }

/-- Scenario S5: the rollback record of the S1 batch (its state_before
restores the empty state: both touched keys were absent before S1). -/
def rbS5 : DataRollbackType :=
  { state_map_before :=
      { state_token_map := [("TEST", none)]
        state_balance_map := [("kaspa:A_TEST", none)]
        state_market_map := [], state_blacklist_map := [] }
    state_map_after := stateMint
    op_score_list := [1101650000000], tx_id_list := ["txdeploy"]
    daa_score_start := 110165000, daa_score_end := 110165000
    checkpoint_before := "", checkpoint_after := "cp1"
    op_score_last := 1101650000000 }

/-- Scenario S5: the cached VSPC ring holding block H1. -/
def vspcS5 : List DataVspcType := [{ daa_score := 110165000, hash := "H1", tx_id_list := ["txdeploy"] }]

/-- Scenario S5: the fresh window with the competing block. -/
def vspcS5new : List DataVspcType := [{ daa_score := 110165000, hash := "H1x", tx_id_list := [] }]

/-- A one-operation batch used to exercise the persist/rewind pair. -/
def opC8 : DataOperationType :=
  { opBase with tx_id := "t8", op_score := 834415510001 }

/-- The hydrated slice before that batch: the token exists, the balance
row is absent. -/
def mbC8 : DataStateMapType :=
  { state_token_map := [("TEST", some tokTEST)]
    state_balance_map := [("kaspa:A_TEST", none)]
    state_market_map := [], state_blacklist_map := [] }

/-- The slice after that batch: minted grew and the balance row exists. -/
def maC8 : DataStateMapType :=
  { state_token_map := [("TEST", some { tokTEST with minted := "500" })]
    state_balance_map := [("kaspa:A_TEST", some balA500)]
    state_market_map := [], state_blacklist_map := [] }

/-- An empty store for the persist/rewind witness. -/
def stEmpty : KVStore := fun _ => none

/-- The store before the batch: it holds exactly the token row that the
before-slice reports. -/
def st0C8 : KVStore := kvPut stEmpty (keyToken "TEST") (KVal.token tokTEST)

/-- The rollback record of that one-operation batch. -/
def rbC8 : DataRollbackType :=
  { state_map_before := mbC8
    state_map_after := maC8
    op_score_list := [opC8.op_score], tx_id_list := [opC8.tx_id]
    daa_score_start := 83441551, daa_score_end := 83441551
    checkpoint_before := "", checkpoint_after := ""
    op_score_last := opC8.op_score }

/-- scanner.rs VSPCScanner::execute_batch: the batch executor of this
code base builds the rollback record with checkpoint_before and
checkpoint_after both equal to the incoming checkpoint (no hash is
computed anywhere in the repository). -/
def execute_batch (_op_data_list : List DataOperationType)
    (state_map : DataStateMapType) (checkpoint_last : String) :
    DataRollbackType × Int :=
  ({ state_map_before := state_map, state_map_after := DataStateMapType.new
     op_score_list := [], tx_id_list := []
     daa_score_start := 0, daa_score_end := 0
     checkpoint_before := checkpoint_last, checkpoint_after := checkpoint_last
     op_score_last := 0 }, 0)

/-! ### Helper lemmas about the association-list maps -/

theorem smap_get?_insert_self {α : Type} (m : SMap α) (k : String) (v : α) :
    SMap.get? (SMap.insert m k v) k = some v := by
  induction m with
  | nil => simp [SMap.insert, SMap.get?]
  | cons e t ih =>
    obtain ⟨k1, v1⟩ := e
    by_cases h : k1 = k
    · simp [SMap.insert, SMap.get?, h]
    · simp [SMap.insert, SMap.get?, h, ih]

theorem smap_get?_insert_ne {α : Type} (m : SMap α) (k k2 : String) (v : α)
    (h : k2 ≠ k) : SMap.get? (SMap.insert m k v) k2 = SMap.get? m k2 := by
  have h2 : ¬ (k = k2) := fun he => h he.symm
  induction m with
  | nil => simp [SMap.insert, SMap.get?, h2]
  | cons e t ih =>
    obtain ⟨k1, v1⟩ := e
    by_cases h1 : k1 = k
    · subst h1
      simp [SMap.insert, SMap.get?, h2]
    · simp only [SMap.insert, if_neg h1, SMap.get?]
      by_cases h3 : k1 = k2
      · simp [h3]
      · simp [h3, ih]

theorem smap_get?_isSome_of_mem {α : Type} (m : SMap α) (k : String) (v : α)
    (h : (k, v) ∈ m) : (SMap.get? m k).isSome = true := by
  induction m with
  | nil => simp at h
  | cons e t ih =>
    obtain ⟨k1, v1⟩ := e
    rcases List.mem_cons.mp h with h1 | h1
    · rw [Prod.ext_iff] at h1
      obtain ⟨hk, _⟩ := h1
      dsimp only at hk
      simp [SMap.get?, hk.symm]
    · by_cases hk : k1 = k
      · simp [SMap.get?, hk]
      · simpa [SMap.get?, hk] using ih h1

theorem smap_mem_of_get? {α : Type} (m : SMap α) (k : String) (v : α)
    (h : SMap.get? m k = some v) : (k, v) ∈ m := by
  induction m with
  | nil => simp [SMap.get?] at h
  | cons e t ih =>
    obtain ⟨k1, v1⟩ := e
    by_cases hk : k1 = k
    · subst hk
      simp [SMap.get?] at h
      simp [h]
    · simp [SMap.get?, hk] at h
      exact List.mem_cons_of_mem _ (ih h)

theorem smap_get?_eq_of_mem_nodup {α : Type} (m : SMap α) (k : String) (v : α)
    (hnd : (m.map Prod.fst).Nodup) (h : (k, v) ∈ m) :
    SMap.get? m k = some v := by
  induction m with
  | nil => simp at h
  | cons e t ih =>
    obtain ⟨k1, v1⟩ := e
    simp only [List.map_cons, List.nodup_cons] at hnd
    rcases List.mem_cons.mp h with h1 | h1
    · rw [Prod.ext_iff] at h1
      obtain ⟨hk, hv⟩ := h1
      dsimp only at hk hv
      simp [SMap.get?, hk.symm, hv]
    · have hk : k1 ≠ k := by
        intro he
        subst he
        exact hnd.1 (List.mem_map.mpr ⟨(k1, v), h1, rfl⟩)
      simp only [SMap.get?, if_neg hk]
      exact ih hnd.2 h1

theorem str_append_right_cancel (a b c : String) (h : a ++ c = b ++ c) : a = b := by
  have h2 : a.data ++ c.data = b.data ++ c.data := by
    have := congrArg String.data h
    simpa using this
  have h3 : a.data = b.data := List.append_cancel_right h2
  exact congrArg String.mk h3

theorem mem_append_ss_info_tick_affc (l : List String) (key : String) (v : Int) :
    (key ++ ":" ++ toString v) ∈ append_ss_info_tick_affc l key v := by
  induction l with
  | nil => simp [append_ss_info_tick_affc]
  | cons line rest ih =>
    rw [append_ss_info_tick_affc]
    by_cases h : key.data.isPrefixOf line.data = true
    · rw [if_pos h]
      exact List.mem_cons_self _ _
    · rw [if_neg h]
      exact List.mem_cons_of_mem _ ih

theorem keyToken_inj (a b : String) (h : keyToken a = keyToken b) : a = b := by
  unfold keyToken at h
  exact congrArg String.mk (List.append_cancel_left h)

theorem keyBalance_inj (a b : String) (h : keyBalance a = keyBalance b) : a = b := by
  unfold keyBalance at h
  exact congrArg String.mk (List.append_cancel_left h)

theorem keyMarket_inj (a b : String) (h : keyMarket a = keyMarket b) : a = b := by
  unfold keyMarket at h
  exact congrArg String.mk (List.append_cancel_left h)

theorem keyBlacklist_inj (a b : String) (h : keyBlacklist a = keyBlacklist b) : a = b := by
  unfold keyBlacklist at h
  exact congrArg String.mk (List.append_cancel_left h)

theorem delOplist_untouched (l : List Nat) (st : KVStore) (k : List Char)
    (h : ∀ sc ∈ l, keyOplist sc ≠ k) :
    (l.foldl (fun acc sc => kvDel acc (keyOplist sc)) st) k = st k := by
  induction l generalizing st with
  | nil => rfl
  | cons x t ih =>
    rw [List.foldl_cons]
    rw [ih _ (fun sc hsc => h sc (List.mem_cons_of_mem _ hsc))]
    simp [kvDel, Ne.symm (h x (List.mem_cons_self _ _))]

theorem delOplist_mem (l : List Nat) (st : KVStore) (k : List Char)
    (h : ∃ sc ∈ l, keyOplist sc = k) :
    (l.foldl (fun acc sc => kvDel acc (keyOplist sc)) st) k = none := by
  induction l generalizing st with
  | nil => simp at h
  | cons x t ih =>
    rw [List.foldl_cons]
    by_cases ht : ∃ sc ∈ t, keyOplist sc = k
    · exact ih _ ht
    · obtain ⟨sc, hsc, he⟩ := h
      rcases List.mem_cons.mp hsc with h1 | h1
      · subst h1
        rw [delOplist_untouched _ _ _ (fun sc2 hsc2 he2 => ht ⟨sc2, hsc2, he2⟩)]
        rw [← he]
        simp [kvDel]
      · exact absurd ⟨sc, h1, he⟩ ht

theorem delOpdata_untouched (l : List String) (st : KVStore) (k : List Char)
    (h : ∀ tx ∈ l, keyOpdata tx ≠ k) :
    (l.foldl (fun acc tx => kvDel acc (keyOpdata tx)) st) k = st k := by
  induction l generalizing st with
  | nil => rfl
  | cons x t ih =>
    rw [List.foldl_cons]
    rw [ih _ (fun tx htx => h tx (List.mem_cons_of_mem _ htx))]
    simp [kvDel, Ne.symm (h x (List.mem_cons_self _ _))]

theorem delOpdata_mem (l : List String) (st : KVStore) (k : List Char)
    (h : ∃ tx ∈ l, keyOpdata tx = k) :
    (l.foldl (fun acc tx => kvDel acc (keyOpdata tx)) st) k = none := by
  induction l generalizing st with
  | nil => simp at h
  | cons x t ih =>
    rw [List.foldl_cons]
    by_cases ht : ∃ tx ∈ t, keyOpdata tx = k
    · exact ih _ ht
    · obtain ⟨tx, htx, he⟩ := h
      rcases List.mem_cons.mp htx with h1 | h1
      · subst h1
        rw [delOpdata_untouched _ _ _ (fun tx2 htx2 he2 => ht ⟨tx2, htx2, he2⟩)]
        rw [← he]
        simp [kvDel]
      · exact absurd ⟨tx, h1, he⟩ ht

theorem putOpdata_untouched (l : List DataOperationType) (st : KVStore) (k : List Char)
    (h : ∀ op ∈ l, keyOpdata op.tx_id ≠ k) :
    (l.foldl (fun acc op => kvPut acc (keyOpdata op.tx_id) (KVal.opdata op)) st) k
      = st k := by
  induction l generalizing st with
  | nil => rfl
  | cons x t ih =>
    rw [List.foldl_cons]
    rw [ih _ (fun op hop => h op (List.mem_cons_of_mem _ hop))]
    simp [kvPut, Ne.symm (h x (List.mem_cons_self _ _))]

theorem putOplist_untouched (l : List DataOperationType) (st : KVStore) (k : List Char)
    (h : ∀ op ∈ l, keyOplist op.op_score ≠ k) :
    (l.foldl (fun acc op => kvPut acc (keyOplist op.op_score) (mkOplistVal op)) st) k
      = st k := by
  induction l generalizing st with
  | nil => rfl
  | cons x t ih =>
    rw [List.foldl_cons]
    rw [ih _ (fun op hop => h op (List.mem_cons_of_mem _ hop))]
    simp [kvPut, Ne.symm (h x (List.mem_cons_self _ _))]

theorem applyStateTable_untouched {α : Type} (keyOf : String → List Char)
    (enc : α → KVal) (m : SMap (Option α)) (st : KVStore) (k : List Char)
    (h : ∀ e ∈ m, keyOf e.1 ≠ k) :
    applyStateTable keyOf enc m st k = st k := by
  induction m generalizing st with
  | nil => rfl
  | cons e t ih =>
    obtain ⟨k1, v1⟩ := e
    show applyStateTable keyOf enc t _ k = st k
    rw [ih _ (fun e2 he2 => h e2 (List.mem_cons_of_mem _ he2))]
    have hne := Ne.symm (h (k1, v1) (List.mem_cons_self _ _))
    cases v1 with
    | none => simp [kvDel, hne]
    | some x => simp [kvPut, hne]

theorem applyStateTable_hit {α : Type} (keyOf : String → List Char)
    (enc : α → KVal) (m : SMap (Option α)) (st : KVStore) (kk : String)
    (vo : Option α)
    (hinj : ∀ a b, keyOf a = keyOf b → a = b)
    (hnd : (m.map Prod.fst).Nodup) (hmem : (kk, vo) ∈ m) :
    applyStateTable keyOf enc m st (keyOf kk) = vo.map enc := by
  induction m generalizing st with
  | nil => simp at hmem
  | cons e t ih =>
    obtain ⟨k1, v1⟩ := e
    simp only [List.map_cons, List.nodup_cons] at hnd
    show applyStateTable keyOf enc t _ (keyOf kk) = vo.map enc
    rcases List.mem_cons.mp hmem with h1 | h1
    · rw [Prod.ext_iff] at h1
      obtain ⟨hk, hv⟩ := h1
      dsimp only at hk hv
      subst hk
      subst hv
      rw [applyStateTable_untouched _ _ _ _ _ ?hun]
      case hun =>
        intro e2 he2 he
        have h2 : e2.1 = kk := hinj _ _ he
        exact hnd.1 (h2 ▸ List.mem_map_of_mem Prod.fst he2)
      cases vo with
      | none => simp [kvDel]
      | some x => simp [kvPut]
    · exact ih _ hnd.2 h1

theorem mem_fst_transfer {α : Type} (l1 l2 : List (String × α))
    (hdom : l1.map Prod.fst = l2.map Prod.fst) (e : String × α) (he : e ∈ l2) :
    ∃ e2 ∈ l1, e2.1 = e.1 := by
  have h1 : e.1 ∈ l2.map Prod.fst := List.mem_map_of_mem _ he
  rw [← hdom] at h1
  obtain ⟨e2, he2, h2⟩ := List.mem_map.mp h1
  exact ⟨e2, he2, h2⟩

/-! ### Claims settled by direct evaluation of the embedded code -/

/-- C7: the claim states that after executing each batch, checkpoint_after
is a Blake2b hash of checkpoint_before concatenated with the serialized
operation records, differing from checkpoint_before on any nonempty batch.
The batch executor of the code (scanner.rs execute_batch) instead copies
the incoming checkpoint into both fields for every input, so
checkpoint_after always equals checkpoint_before. -/
theorem execute_batch_checkpoint_is_copied :
    ∀ (l : List DataOperationType) (m : DataStateMapType) (c : String),
      (execute_batch l m c).1.checkpoint_after
        = (execute_batch l m c).1.checkpoint_before :=
  fun _ _ _ => rfl

/-- C1: evaluation of the scanner rollback branch (scan_vspc_batch) at
scenario S5: the rollback ring holds exactly one record rbS5 whose
daa_score_end (110165000) reaches the detected rollback daa score
110165000, so the claim requires that record to be rewound; the code
instead takes the no-rewind branch because its guard demands
rollback_list.len() - 1 > 0: the ring and the store are left unchanged and
only the VSPC window is replaced. -/
theorem scan_single_record_ring_not_rewound :
    110165000 ≤ rbS5.daa_score_end ∧ rbS5.op_score_list ≠ [] ∧
    ∀ st : KVStore,
      scan_rollback_branch [rbS5] vspcS5 vspcS5new 110165000 st
        = { rollback_list := [rbS5], vspc_list := vspcS5new
            store := st, rewound := false } :=
  ⟨by decide, by decide, fun _ => rfl⟩

/-- C2: evaluation of scenario S6 on the embedded executors: the blacklist
executor inserts its row under the key "blacklist:kaspa:X:TEST", while the
transfer executor reads the key "TEST_kaspa:X"; the two keys differ, so
the subsequent transfer from the blacklisted address is accepted
(op_accept = 1) and moves the balance, contradicting the claimed
address_blacklisted rejection. -/
theorem blacklist_key_never_read_by_transfer :
    BlacklistOperation.execute scriptBlacklistS6 stateS6 = Except.ok stateS6After
    ∧ (SMap.get? stateS6After.state_blacklist_map "blacklist:kaspa:X:TEST").isSome = true
    ∧ ("blacklist:kaspa:X:TEST" : String) ≠ "TEST_kaspa:X"
    ∧ (TransferOperation.do_operation vaTrue 0 opTransferS6 stateS6After false).1.op_accept = 1
    ∧ (TransferOperation.do_operation vaTrue 0 opTransferS6 stateS6After
        false).2.state_balance_map.get? "kaspa:X_TEST"
        = some (some { balX5 with balance := "4", op_mod := 1101650000000 }) :=
  ⟨rfl, by decide, by decide, by decide, by decide⟩

/-- C3: evaluation of the burn executor at an accepted burn: the keys
prepared for the slice are the plain tick and "balance:from:tick", while
the executor's token update reads "token:tick"; on the hydrated slice the
burn is accepted (op_accept = 1) yet neither the sender balance nor
token.minted changes - the state slice is returned byte-identical. -/
theorem burn_accepted_without_any_debit :
    BurnOperation.prepare_state_key scriptBurnS DataStateMapType.new
      = { state_token_map := [("TEST", none)]
          state_balance_map := [("balance:kaspa:A:TEST", none)]
          state_market_map := [], state_blacklist_map := [] }
    ∧ BurnOperation.do_operation 0 opBurnS stateBurn false
        = ({ opBurnS with op_accept := 1, op_error := "" }, stateBurn) :=
  ⟨by decide, by decide⟩

/-- C5 counterexample: at scenario S3 (transfer of the entire 1500 TEST
balance with zero locked) the produced statistics entry is "TEST:-1" with
a colon, produced by append_ss_info_tick_affc, and the list does not
contain the claimed literal "TEST=-1"; the balance row is deleted and the
receiver credited as claimed. -/
theorem transfer_tick_affc_uses_colon :
    (TransferOperation.do_operation vaTrue 0 opTransferS3 stateS3 false).1.ss_info
      = some { tick_affc := ["TEST:-1"]
               address_affc := ["kaspa:A_TEST=0", "kaspa:B_TEST=1500"] }
    ∧ ¬ ("TEST=-1" ∈ ((TransferOperation.do_operation vaTrue 0 opTransferS3
          stateS3 false).1.ss_info.getD default).tick_affc)
    ∧ (TransferOperation.do_operation vaTrue 0 opTransferS3
        stateS3 false).2.state_balance_map.get? "kaspa:A_TEST" = some none
    ∧ (TransferOperation.do_operation vaTrue 0 opTransferS3
        stateS3 false).2.state_balance_map.get? "kaspa:B_TEST"
        = some (some { address := "kaspa:B", tick := "TEST", dec := 8
                       balance := "1500", locked := "0"
                       op_mod := 1101650000000 }) :=
  ⟨by decide, by decide, by decide, by decide⟩

/-- C6 counterexample: deploy validates its amount fields (max, lim, pre)
with its own u64-based DeployOperation::validate_amount, which rejects the
32-nines string 10^32 - 1 that the claim requires every opcode to accept;
the shared operations::validate_amount accepts the same string. -/
theorem deploy_validate_amount_rejects_limit :
    DeployOperation.validate_amount "99999999999999999999999999999999" = false
    ∧ validate_amount "99999999999999999999999999999999" = true :=
  ⟨by decide, by decide⟩

/-- C10 counterexample: a mint operation parsed at daa score 83441551
receives fee = fee_least = 50000000 from the parser fee table (the exact
assignment the claim describes), yet the mint executor demands its own
constant 100000000 and rejects with "fee not enough" - the branch the
claim calls unreachable. -/
theorem mint_parser_fee_rejected_below_threshold :
    get_operation_fee "mint" 83441551 = 50000000
    ∧ opMintOld.fee = get_operation_fee "mint" 83441551
    ∧ 0 < opMintOld.fee
    ∧ (MintOperation.do_operation vaTrue 0 opMintOld stateMint false).1.op_accept = -1
    ∧ (MintOperation.do_operation vaTrue 0 opMintOld stateMint false).1.op_error
        = "fee not enough" :=
  ⟨rfl, by decide, by decide, by decide, by decide⟩

/-! ### Digit-string lemmas for the amount validators -/

theorem char_digit_toNat (c : Char) (h : c.isDigit = true) :
    48 ≤ c.toNat ∧ c.toNat ≤ 57 := by
  simp [Char.isDigit] at h
  exact h

theorem digitsVal_cons (c : Char) (l : List Char) :
    digitsVal (c :: l) = (c.toNat - '0'.toNat) * 10 ^ l.length + digitsVal l := by
  have aux : ∀ (l : List Char) (a : Nat),
      l.foldl (fun a c => a * 10 + (c.toNat - '0'.toNat)) a
        = a * 10 ^ l.length + digitsVal l := by
    intro l
    induction l with
    | nil => intro a; simp [digitsVal]
    | cons c2 t ih =>
      intro a
      show List.foldl _ (a * 10 + (c2.toNat - '0'.toNat)) t = _
      rw [ih]
      have h2 : digitsVal (c2 :: t)
          = (c2.toNat - '0'.toNat) * 10 ^ t.length + digitsVal t := by
        show List.foldl _ (0 * 10 + (c2.toNat - '0'.toNat)) t = _
        rw [ih]
        ring
      rw [h2]
      simp [List.length_cons]
      ring
  exact aux l (0 * 10 + (c.toNat - '0'.toNat)) |>.trans (by ring)

theorem digitsVal_lt (l : List Char) (h : ∀ c ∈ l, c.isDigit = true) :
    digitsVal l < 10 ^ l.length := by
  induction l with
  | nil => simp [digitsVal]
  | cons c t ih =>
    rw [digitsVal_cons]
    have hc := char_digit_toNat c (h c (List.mem_cons_self c t))
    have hz : '0'.toNat = 48 := rfl
    have h9 : c.toNat - '0'.toNat ≤ 9 := by omega
    have ht := ih (fun c2 hm => h c2 (List.mem_cons_of_mem _ hm))
    have : (c.toNat - '0'.toNat) * 10 ^ t.length ≤ 9 * 10 ^ t.length :=
      Nat.mul_le_mul_right _ h9
    calc (c.toNat - '0'.toNat) * 10 ^ t.length + digitsVal t
        < (c.toNat - '0'.toNat) * 10 ^ t.length + 10 ^ t.length := by omega
      _ ≤ 9 * 10 ^ t.length + 10 ^ t.length := by omega
      _ = 10 ^ (t.length + 1) := by ring
      _ = 10 ^ (c :: t).length := by simp

theorem digitsVal_ge (c : Char) (l : List Char) (hc : c.isDigit = true)
    (h0 : c ≠ '0') : 10 ^ l.length ≤ digitsVal (c :: l) := by
  rw [digitsVal_cons]
  have hb := char_digit_toNat c hc
  have hz : '0'.toNat = 48 := rfl
  have h1 : 1 ≤ c.toNat - '0'.toNat := by
    have hne : c.toNat ≠ 48 := by
      intro he
      exact h0 (Char.ext (UInt32.ext he))
    omega
  have := Nat.mul_le_mul_right (10 ^ l.length) h1
  omega

theorem lexLt_replicate_nine (l : List Char) (n : Nat)
    (h : ∀ c ∈ l, c.isDigit = true) (hl : l.length = n) :
    lexLtChars (List.replicate n '9') l = false := by
  induction l generalizing n with
  | nil =>
    subst hl
    simp [lexLtChars]
  | cons c t ih =>
    subst hl
    simp only [List.length_cons]
    rw [List.replicate_succ]
    have hc := char_digit_toNat c (h c (List.mem_cons_self c t))
    rw [lexLtChars]
    have h9n : '9'.toNat = 57 := rfl
    have h9 : ¬ ('9'.toNat < c.toNat) := by omega
    rw [if_neg h9]
    by_cases hlt : c.toNat < '9'.toNat
    · rw [if_pos hlt]
    · rw [if_neg hlt]
      exact ih t.length (fun c2 hm => h c2 (List.mem_cons_of_mem _ hm)) rfl

theorem validate_amount_digits_iff (s : String)
    (hd : s.data.all (fun c => c.isDigit) = true) (hne : s.data ≠ []) :
    validate_amount s = true ↔ s ≠ "0" ∧ s.data.length ≤ 32 := by
  have hlim : AMOUNT_LIMIT.data = List.replicate 32 '9' := by decide
  have hlen : AMOUNT_LIMIT.data.length = 32 := by decide
  unfold validate_amount
  rw [if_neg (by simpa [List.isEmpty_iff] using hne)]
  rw [if_neg (by simp [hd])]
  by_cases h3 : s = "0"
  · rw [if_pos h3]
    simp [h3]
  · rw [if_neg h3]
    by_cases h4 : s.data.length > AMOUNT_LIMIT.data.length
    · rw [if_pos h4]
      rw [hlen] at h4
      constructor
      · intro h; exact absurd h (by simp)
      · intro h; omega
    · rw [if_neg h4]
      rw [hlen] at h4
      have hcond : (decide (s.data.length = AMOUNT_LIMIT.data.length)
          && lexLtChars AMOUNT_LIMIT.data s.data) = false := by
        by_cases h6 : s.data.length = 32
        · have hlx : lexLtChars AMOUNT_LIMIT.data s.data = false := by
            rw [hlim]
            exact lexLt_replicate_nine s.data 32
              (fun c hm => List.all_eq_true.mp hd c hm) h6
          rw [hlx, Bool.and_false]
        · rw [hlen, decide_eq_false h6, Bool.false_and]
      rw [if_neg (by rw [hcond]; exact Bool.false_ne_true)]
      constructor
      · intro _; exact ⟨h3, by omega⟩
      · intro _; rfl

theorem rustParseNat_digits (bound : Nat) (s : String) (hne : s.data ≠ [])
    (hd : s.data.all (fun c => c.isDigit) = true) :
    rustParseNat bound s
      = if digitsVal s.data < bound then some (digitsVal s.data) else none := by
  obtain ⟨data⟩ := s
  simp only at hne hd ⊢
  cases data with
  | nil => exact absurd rfl hne
  | cons c rest =>
    have hc : c.isDigit = true := by
      simp [List.all_cons] at hd
      exact hd.1
    have hplus : ¬ (c = '+') := by
      intro he
      subst he
      simp at hc
    show rustParseNat bound (String.mk (c :: rest)) = _
    simp only [rustParseNat]
    rw [if_neg hplus]
    rw [if_neg (by simp)]
    rw [if_pos hd]

/-- C6 (amended): the shared operations::validate_amount, used for the
amt fields, accepts a leading-zero-free digit string exactly when its
value v satisfies 1 <= v <= 10^32 - 1 (so thirty-two nines validates and
the 33-character 10^32 rejects), though it also accepts leading-zero
strings such as "00" whose value is 0; deploy validates max/lim/pre with
its own u64-based DeployOperation::validate_amount, accepting a digit
string exactly when v <= 2^64 - 1 (so it accepts "0" and rejects
thirty-two nines); burn validates amt with its own u64-based check
requiring 1 <= v <= 2^64 - 1. -/
theorem amount_validators_characterized :
    (∀ s : String, s.data.all (fun c => c.isDigit) = true → s.data ≠ [] →
      (s.data.head? = some '0' → s = "0") →
      (validate_amount s = true ↔
        1 ≤ digitsVal s.data ∧ digitsVal s.data ≤ 10 ^ 32 - 1))
    ∧ validate_amount "99999999999999999999999999999999" = true
    ∧ validate_amount "100000000000000000000000000000000" = false
    ∧ validate_amount "00" = true
    ∧ (∀ s : String, s.data ≠ [] → s.data.all (fun c => c.isDigit) = true →
      (DeployOperation.validate_amount s = true ↔ digitsVal s.data < 2 ^ 64))
    ∧ (∀ s : String, s.data ≠ [] → s.data.all (fun c => c.isDigit) = true →
      (BurnOperation.validate_amount s = true ↔
        1 ≤ digitsVal s.data ∧ digitsVal s.data < 2 ^ 64)) := by
  refine ⟨?_, by decide, by decide, by decide, ?_, ?_⟩
  · intro s hd hne hcanon
    rw [validate_amount_digits_iff s hd hne]
    by_cases h0 : s = "0"
    · subst h0
      constructor
      · intro h; exact absurd rfl h.1
      · intro h
        have : digitsVal "0".data = 0 := by decide
        omega
    · obtain ⟨c, rest, hs⟩ : ∃ c rest, s.data = c :: rest := by
        cases hder : s.data with
        | nil => exact absurd hder hne
        | cons c rest => exact ⟨c, rest, rfl⟩
      have hc0 : c ≠ '0' := by
        intro he
        exact h0 (hcanon (by rw [hs, he]; rfl))
      have hcd : c.isDigit = true :=
        List.all_eq_true.mp hd c (by rw [hs]; exact List.mem_cons_self c rest)
      have hge : 10 ^ rest.length ≤ digitsVal s.data := by
        rw [hs]; exact digitsVal_ge c rest hcd hc0
      have hlt : digitsVal s.data < 10 ^ s.data.length :=
        digitsVal_lt s.data (fun c2 hm => List.all_eq_true.mp hd c2 hm)
      have hone : 1 ≤ digitsVal s.data :=
        le_trans (Nat.one_le_pow _ _ (by norm_num)) hge
      constructor
      · intro ⟨_, hlen⟩
        refine ⟨hone, ?_⟩
        have : (10 : Nat) ^ s.data.length ≤ 10 ^ 32 :=
          Nat.pow_le_pow_right (by norm_num) hlen
        omega
      · intro ⟨_, hle⟩
        refine ⟨h0, ?_⟩
        by_contra hgt
        push_neg at hgt
        have hrl : 32 ≤ rest.length := by
          have : s.data.length = rest.length + 1 := by rw [hs]; simp
          omega
        have : (10 : Nat) ^ 32 ≤ 10 ^ rest.length :=
          Nat.pow_le_pow_right (by norm_num) hrl
        have h32 : (10 : Nat) ^ 32 - 1 < 10 ^ 32 := by norm_num
        omega
  · intro s hne hd
    unfold DeployOperation.validate_amount
    rw [if_neg (by simpa [List.isEmpty_iff] using hne)]
    rw [rustParseNat_digits (2 ^ 64) s hne hd]
    by_cases h : digitsVal s.data < 2 ^ 64
    · simp [h]
    · simp [h]
  · intro s hne hd
    unfold BurnOperation.validate_amount
    rw [if_neg (by simpa [List.isEmpty_iff] using hne)]
    rw [rustParseNat_digits (2 ^ 64) s hne hd]
    by_cases h : digitsVal s.data < 2 ^ 64
    · rw [if_pos h]
      simp
      omega
    · rw [if_neg h]
      simp
      omega

/-- Witness for C6: the characterization applied at the concrete strings
"1500" (accepted by all three validators) and at thirty-two nines for
deploy (rejected because its value exceeds 2^64 - 1). -/
theorem amount_validators_characterized_witness :
    validate_amount "1500" = true
    ∧ DeployOperation.validate_amount "1500" = true
    ∧ BurnOperation.validate_amount "1500" = true
    ∧ DeployOperation.validate_amount "99999999999999999999999999999999" = false :=
  ⟨(amount_validators_characterized.1 "1500" (by decide) (by decide)
      (by decide)).mpr ⟨by decide, by decide⟩,
   (amount_validators_characterized.2.2.2.2.1 "1500" (by decide)
      (by decide)).mpr (by decide),
   (amount_validators_characterized.2.2.2.2.2 "1500" (by decide)
      (by decide)).mpr ⟨by decide, by decide⟩,
   by
     have h := amount_validators_characterized.2.2.2.2.1
       "99999999999999999999999999999999" (by decide) (by decide)
     by_contra hc
     simp at hc
     exact absurd (h.mp hc) (by decide)⟩

/-! ### The recyclable-opcode keep discipline of the input parser -/

theorem keep_op_scripts_recyclable (inputs : List (Option DataScriptType)) :
    ∀ i : Nat, 1 ≤ i → ∀ s ∈ keep_op_scripts i inputs, is_op_recycle s.op = true := by
  induction inputs with
  | nil => intro i _ s hs; simp [keep_op_scripts] at hs
  | cons x rest ih =>
    intro i hi s hs
    match x, i, hi with
    | none, i, hi =>
        rw [keep_op_scripts] at hs
        exact ih (i + 1) (by omega) s hs
    | some s0, i + 1, _ =>
        rw [keep_op_scripts] at hs
        by_cases hr : is_op_recycle s0.op = true
        · rw [if_pos hr] at hs
          rcases List.mem_cons.mp hs with h1 | h1
          · subst h1; exact hr
          · exact ih (i + 2) (by omega) s h1
        · rw [if_neg hr] at hs
          exact ih (i + 2) (by omega) s hs

theorem keep_op_scripts_keeps (inputs : List (Option DataScriptType)) :
    ∀ i : Nat, 1 ≤ i → ∀ s : DataScriptType, some s ∈ inputs →
      is_op_recycle s.op = true → s ∈ keep_op_scripts i inputs := by
  induction inputs with
  | nil => intro i _ s hs; simp at hs
  | cons x rest ih =>
    intro i hi s hs hr
    rcases List.mem_cons.mp hs with h1 | h1
    · subst h1
      match i, hi with
      | i + 1, _ =>
        rw [keep_op_scripts, if_pos hr]
        exact List.mem_cons_self s _
    · match x, i, hi with
      | none, i, hi =>
          rw [keep_op_scripts]
          exact ih (i + 1) (by omega) s h1 hr
      | some s0, i + 1, _ =>
          rw [keep_op_scripts]
          by_cases hr0 : is_op_recycle s0.op = true
          · rw [if_pos hr0]
            exact List.mem_cons_of_mem s0 (ih (i + 2) (by omega) s h1 hr)
          · rw [if_neg hr0]
            exact ih (i + 2) (by omega) s h1 hr

/-- C9: the script parser keeps the decoded operation of the first
transaction input unconditionally and keeps a decoded operation of any
later input exactly when its opcode lies in the recyclable set
mint/burn/transfer/send (is_op_recycle); every other opcode on a
non-first input is dropped. -/
theorem parse_non_first_input_recyclable :
    (∀ op : String, is_op_recycle op = true ↔
      (op = "mint" ∨ op = "burn" ∨ op = "transfer" ∨ op = "send"))
    ∧ (∀ (s0 : DataScriptType) (rest : List (Option DataScriptType)),
        parse_op_scripts (some s0 :: rest) = s0 :: keep_op_scripts 1 rest)
    ∧ (∀ (inputs : List (Option DataScriptType)) (s : DataScriptType),
        s ∈ parse_op_scripts inputs →
          inputs.head? = some (some s) ∨ is_op_recycle s.op = true)
    ∧ (∀ (inputs : List (Option DataScriptType)) (s : DataScriptType),
        some s ∈ inputs.tail → is_op_recycle s.op = true →
          s ∈ parse_op_scripts inputs) := by
  refine ⟨?_, ?_, ?_, ?_⟩
  · intro op
    unfold is_op_recycle
    constructor
    · intro h
      rcases Bool.or_eq_true_iff.mp h with h1 | h1
      · rcases Bool.or_eq_true_iff.mp h1 with h2 | h2
        · rcases Bool.or_eq_true_iff.mp h2 with h3 | h3
          · exact Or.inl (by simpa using h3)
          · exact Or.inr (Or.inl (by simpa using h3))
        · exact Or.inr (Or.inr (Or.inl (by simpa using h2)))
      · exact Or.inr (Or.inr (Or.inr (by simpa using h1)))
    · intro h
      rcases h with h | h | h | h <;> simp [h]
  · intro s0 rest
    rfl
  · intro inputs s hs
    cases inputs with
    | nil => simp [parse_op_scripts, keep_op_scripts] at hs
    | cons x rest =>
      cases x with
      | none =>
          rw [parse_op_scripts, keep_op_scripts] at hs
          exact Or.inr (keep_op_scripts_recyclable rest 1 (by omega) s hs)
      | some s0 =>
          rw [parse_op_scripts, keep_op_scripts] at hs
          rcases List.mem_cons.mp hs with h1 | h1
          · subst h1; exact Or.inl rfl
          · exact Or.inr (keep_op_scripts_recyclable rest 1 (by omega) s h1)
  · intro inputs s hs hr
    cases inputs with
    | nil => simp at hs
    | cons x rest =>
      simp only [List.tail_cons] at hs
      cases x with
      | none =>
          rw [parse_op_scripts, keep_op_scripts]
          exact keep_op_scripts_keeps rest 1 (by omega) s hs hr
      | some s0 =>
          rw [parse_op_scripts, keep_op_scripts]
          exact List.mem_cons_of_mem s0 (keep_op_scripts_keeps rest 1 (by omega) s hs hr)

/-- Witness for C9: on the concrete input list whose first input decodes
the S6 blacklist operation and whose second input decodes the recyclable
S6 transfer, the parser keeps both; the recyclable-set characterization
evaluated at "transfer" and "blacklist". -/
theorem parse_non_first_input_recyclable_witness :
    scriptTransferS6 ∈ parse_op_scripts [some scriptBlacklistS6, some scriptTransferS6]
    ∧ is_op_recycle "transfer" = true
    ∧ is_op_recycle "blacklist" = false :=
  ⟨parse_non_first_input_recyclable.2.2.2
      [some scriptBlacklistS6, some scriptTransferS6] scriptTransferS6
      (by decide) (by decide),
   (parse_non_first_input_recyclable.1 "transfer").mpr (Or.inr (Or.inr (Or.inl rfl))),
   by decide⟩

/-- C10 (amended): in parse_op_data_list, an operation whose opcode has a
nonzero parser fee table value is assigned fee exactly equal to that
fee_least (input amount = output amount + fee_least, barring u64 overflow
of that sum), so the mint executor rejection branch for fee == 0
(fee unknown) is unreachable on parser-produced batches; the branch for
fee < fee_least (fee not enough) is unreachable only at daa scores of at
least 110165000, where the parser table matches the executor constants
(mint 100000000, deploy 100000000000) - below that threshold the parser
assigns the old half fee and the executor rejects. -/
theorem parser_fee_assignment_spec :
    (∀ fee_least amount_out : Nat, 0 < fee_least →
      amount_out + fee_least < 2 ^ 64 →
      assign_fee fee_least amount_out = fee_least)
    ∧ (∀ daa_score : Nat, 110165000 ≤ daa_score →
        get_operation_fee "mint" daa_score = MintOperation.fee_least daa_score
        ∧ get_operation_fee "deploy" daa_score = DeployOperation.fee_least daa_score)
    ∧ (∀ (va : String → Bool → Bool) (index : Nat) (op_data : DataOperationType)
        (m : DataStateMapType) (testnet : Bool) (daa_score : Nat),
        110165000 ≤ daa_score →
        op_data.fee = get_operation_fee "mint" daa_score →
        op_data.op_error = "" →
        (MintOperation.do_operation va index op_data m testnet).1.op_error ≠ "fee unknown"
        ∧ (MintOperation.do_operation va index op_data m testnet).1.op_error
            ≠ "fee not enough") := by
  refine ⟨?_, ?_, ?_⟩
  · intro fl out hpos hlt
    unfold assign_fee
    rw [Nat.mod_eq_of_lt hlt]
    rw [if_neg (by omega)]
    omega
  · intro daa h
    constructor
    · unfold get_operation_fee MintOperation.fee_least
      simp [h]
    · unfold get_operation_fee DeployOperation.fee_least
      simp [h]
  · intro va index op_data m testnet daa hd110 hf herr
    have hfee : op_data.fee = 100000000 := by
      rw [hf]
      unfold get_operation_fee
      simp [hd110]
    unfold MintOperation.do_operation
    constructor <;>
    · split
      · simp [herr]
      · rename_i s hs
        dsimp only
        split
        · rename_i r hr
          split at hr
          · split at hr
            · split at hr
              · simp only [Option.some.injEq] at hr
                subst hr
                simp
              · simp at hr
            · simp only [Option.some.injEq] at hr
              subst hr
              simp
            · simp only [Option.some.injEq] at hr
              subst hr
              simp
          · simp at hr
        · rw [hfee]
          rw [if_neg (by norm_num)]
          rw [if_neg (by unfold MintOperation.fee_least; omega)]
          split
          · simp
          · split
            · simp
            · simp [herr]

/-- Witness for C10: the fee assignment and the executor fee checks at the
concrete scenario S2 mint (daa 110165000, fee 100000000 from the table):
the assigned fee equals fee_least and the executed operation carries no
fee error. -/
theorem parser_fee_assignment_spec_witness :
    assign_fee (get_operation_fee "mint" 110165000) 0
      = get_operation_fee "mint" 110165000
    ∧ (MintOperation.do_operation vaTrue 0 opMintS2 stateMint false).1.op_error
        ≠ "fee unknown"
    ∧ (MintOperation.do_operation vaTrue 0 opMintS2 stateMint false).1.op_error
        ≠ "fee not enough" :=
  ⟨parser_fee_assignment_spec.1 (get_operation_fee "mint" 110165000) 0
      (by decide) (by decide),
   (parser_fee_assignment_spec.2.2 vaTrue 0 opMintS2 stateMint false 110165000
      (by decide) (by decide) (by decide)).1,
   (parser_fee_assignment_spec.2.2 vaTrue 0 opMintS2 stateMint false 110165000
      (by decide) (by decide) (by decide)).2⟩

/-- C4: for every mint on an existing mint-mode token (mode "") that
passes the fee and address gates, when minted < max_supply the credited
amount is min(token.lim, token.max - token.minted): token.minted grows by
exactly that amount and the to address balance is credited by exactly
that amount (creating the row when absent); when max - minted = 0 the
operation is rejected with "mint finished" and the state slice is
returned unchanged. -/
theorem mint_do_operation_spec
    (va : String → Bool → Bool) (index : Nat) (op_data : DataOperationType)
    (m : DataStateMapType) (testnet : Bool) (s : DataScriptType)
    (tick toA : String) (tok : StateTokenType)
    (hs : op_data.op_script.get? index = some s)
    (htick : s.tick = some tick) (hto : s.to_addr = some toA)
    (htok : SMap.get? m.state_token_map tick = some (some tok))
    (hmode : tok.mod_type = "")
    (hfee0 : ¬ (op_data.fee = 0))
    (hfee : MintOperation.fee_least op_data.op_score ≤ op_data.fee)
    (hva : va toA testnet = true) :
    (parseOrZero (2 ^ 128) tok.minted < parseOrZero (2 ^ 128) tok.max →
      (MintOperation.do_operation va index op_data m testnet).1.op_accept = 1
      ∧ SMap.get?
          (MintOperation.do_operation va index op_data m testnet).2.state_token_map tick
          = some (some { tok with
              minted := toString (parseOrZero (2 ^ 128) tok.minted
                + min (parseOrZero (2 ^ 128) tok.lim)
                    (parseOrZero (2 ^ 128) tok.max - parseOrZero (2 ^ 128) tok.minted))
              op_mod := op_data.op_score, mts_mod := op_data.mts_add })
      ∧ SMap.get?
          (MintOperation.do_operation va index op_data m testnet).2.state_balance_map
          (toA ++ "_" ++ tick)
          = some (some
              (let base :=
                match (SMap.get? m.state_balance_map (toA ++ "_" ++ tick)).getD none with
                | some b => b
                | none =>
                  { address := toA, tick := tick, dec := tok.dec, balance := "0"
                    locked := "0", op_mod := op_data.op_score }
               { base with
                  balance := toString (parseOrZero (2 ^ 128) base.balance
                    + min (parseOrZero (2 ^ 128) tok.lim)
                        (parseOrZero (2 ^ 128) tok.max - parseOrZero (2 ^ 128) tok.minted))
                  op_mod := op_data.op_score })))
    ∧ (parseOrZero (2 ^ 128) tok.max ≤ parseOrZero (2 ^ 128) tok.minted →
        MintOperation.do_operation va index op_data m testnet
          = ({ op_data with op_accept := -1, op_error := "mint finished" }, m)) := by
  unfold MintOperation.do_operation
  rw [hs]
  dsimp only
  simp only [htick, htok]
  rw [if_neg (by simp [hmode])]
  dsimp only
  rw [if_neg hfee0]
  rw [if_neg (Nat.not_lt.mpr hfee)]
  rw [hto]
  simp only [Option.getD_some]
  rw [hva]
  simp only [Bool.not_true, Bool.false_eq_true, if_false]
  rw [htok]
  simp only [Option.getD_some]
  have hmin : ∀ a b : Nat, (if a > b then b else a) = min a b := by
    intro a b; split <;> omega
  constructor
  · intro hlt
    rw [if_neg (by omega)]
    rw [hmin]
    refine ⟨rfl, ?_, ?_⟩
    · exact smap_get?_insert_self _ _ _
    · exact smap_get?_insert_self _ _ _
  · intro hge
    rw [if_pos (by omega)]

/-- Witness for C4: the mint specification applied at scenario S2
(max 1000000, minted 500, lim 1000): credited = min(1000, 999500) = 1000,
minted becomes 1500, and the kaspa:A balance becomes 1500. -/
theorem mint_do_operation_spec_witness :
    (MintOperation.do_operation vaTrue 0 opMintS2 stateMint false).1.op_accept = 1
    ∧ SMap.get? (MintOperation.do_operation vaTrue 0 opMintS2
        stateMint false).2.state_token_map "TEST"
        = some (some
            { tokTEST with minted := "1500", op_mod := 1101650000000, mts_mod := 7 })
    ∧ SMap.get? (MintOperation.do_operation vaTrue 0 opMintS2
        stateMint false).2.state_balance_map "kaspa:A_TEST"
        = some (some { balA500 with balance := "1500", op_mod := 1101650000000 }) := by
  have h := (mint_do_operation_spec vaTrue 0 opMintS2 stateMint false scriptMintS
    "TEST" "kaspa:A" tokTEST (by decide) (by decide) (by decide) (by decide)
    (by decide) (by decide) (by decide) (by decide)).1 (by decide)
  exact ⟨h.1, h.2.1.trans (by decide), h.2.2.trans (by decide)⟩

/-- C5 (amended): for every transfer that passes the rejection gates
(token present, sender not blacklisted under "tick_from", distinct
addresses, valid receiver) and whose amount equals the sender's entire
balance while the sender's locked amount is the string "0", the sender's
balance row is overwritten with a delete marker (absence = zero), the
receiver's balance is credited by the full amount (creating the row when
absent), and the operation statistics contain the tick_affc entry
tick ++ ":" ++ "-1" - a colon-separated entry, not the "=-1" form the
claim states. -/
theorem transfer_full_balance_spec
    (va : String → Bool → Bool) (index : Nat) (op_data : DataOperationType)
    (m : DataStateMapType) (testnet : Bool) (s : DataScriptType)
    (tick fromA toA : String) (tok : StateTokenType) (bal : StateBalanceType)
    (hs : op_data.op_script.get? index = some s)
    (htick : s.tick = some tick) (hfrom : s.from_addr = some fromA)
    (hto : s.to_addr = some toA)
    (htok : SMap.get? m.state_token_map tick = some (some tok))
    (hbl : (SMap.get? m.state_blacklist_map (tick ++ "_" ++ fromA)).getD none = none)
    (hne : fromA ≠ toA)
    (hva : va toA testnet = true)
    (hbal : (SMap.get? m.state_balance_map (fromA ++ "_" ++ tick)).getD none = some bal)
    (hlocked : bal.locked = "0")
    (hamt : parseOrZero (2 ^ 128) (s.amt.getD "0") = parseOrZero (2 ^ 128) bal.balance) :
    (TransferOperation.do_operation va index op_data m testnet).1.op_accept = 1
    ∧ SMap.get?
        (TransferOperation.do_operation va index op_data m testnet).2.state_balance_map
        (fromA ++ "_" ++ tick) = some none
    ∧ SMap.get?
        (TransferOperation.do_operation va index op_data m testnet).2.state_balance_map
        (toA ++ "_" ++ tick)
        = some (some
            (let base :=
              match (SMap.get? m.state_balance_map (toA ++ "_" ++ tick)).getD none with
              | some b => b
              | none =>
                { address := toA, tick := tick, dec := bal.dec, balance := "0"
                  locked := "0", op_mod := op_data.op_score }
             { base with
                balance := toString (parseOrZero (2 ^ 128) base.balance
                  + parseOrZero (2 ^ 128) bal.balance)
                op_mod := op_data.op_score }))
    ∧ (tick ++ ":" ++ toString (-1 : Int))
        ∈ ((TransferOperation.do_operation va index op_data m testnet).1.ss_info.getD
            default).tick_affc := by
  have hkey : fromA ++ "_" ++ tick ≠ toA ++ "_" ++ tick := by
    intro he
    exact hne (str_append_right_cancel _ _ _ (str_append_right_cancel _ _ _ he))
  unfold TransferOperation.do_operation
  rw [hs]
  dsimp only
  simp only [htick, htok]
  rw [if_neg (by simp)]
  simp only [hfrom]
  rw [hbl]
  simp only [Option.isSome_none, Bool.false_eq_true, if_false]
  rw [if_neg (by simp [hfrom, hto, hne])]
  rw [hto]
  simp only [Option.getD_some]
  rw [hva]
  simp only [Bool.not_true, Bool.false_eq_true, if_false]
  rw [hbal]
  dsimp only
  rw [if_neg (by rw [hamt]; omega)]
  rw [if_pos (And.intro hamt hlocked)]
  rw [if_pos (And.intro (by rw [hamt, Nat.sub_self]; rfl) hlocked)]
  refine And.intro rfl (And.intro ?_ (And.intro ?_ ?_))
  · exact smap_get?_insert_self _ _ _
  · rw [smap_get?_insert_ne _ _ _ _ (Ne.symm hkey)]
    rw [smap_get?_insert_self]
    rw [hamt]
  · exact mem_append_ss_info_tick_affc _ _ _

/-- Witness for C5: the transfer specification applied at scenario S3
(transfer of the full 1500 TEST from kaspa:A to kaspa:B with zero
locked): the kaspa:A row is deleted, kaspa:B holds 1500, and the stats
entry is the colon form "TEST:-1". -/
theorem transfer_full_balance_spec_witness :
    (TransferOperation.do_operation vaTrue 0 opTransferS3 stateS3 false).1.op_accept = 1
    ∧ SMap.get? (TransferOperation.do_operation vaTrue 0 opTransferS3
        stateS3 false).2.state_balance_map "kaspa:A_TEST" = some none
    ∧ SMap.get? (TransferOperation.do_operation vaTrue 0 opTransferS3
        stateS3 false).2.state_balance_map "kaspa:B_TEST"
        = some (some { address := "kaspa:B", tick := "TEST", dec := 8
                       balance := "1500", locked := "0", op_mod := 1101650000000 })
    ∧ ("TEST:-1" : String)
        ∈ ((TransferOperation.do_operation vaTrue 0 opTransferS3
            stateS3 false).1.ss_info.getD default).tick_affc := by
  have h := transfer_full_balance_spec vaTrue 0 opTransferS3 stateS3 false
    scriptTransferS3 "TEST" "kaspa:A" "kaspa:B"
    { tokTEST with minted := "1500" } balA1500
    (by decide) (by decide) (by decide) (by decide) (by decide) (by decide)
    (by decide) (by decide) (by decide) (by decide) (by decide)
  exact ⟨h.1, h.2.1, h.2.2.1.trans (by decide),
    (by decide : ("TEST" ++ ":" ++ toString (-1 : Int)) = "TEST:-1") ▸ h.2.2.2⟩

/-- C8: rollback inverse.  For every committed batch whose rollback
record carries the batch op_score and tx_id lists and whose before-slice
describes the prior store (each before-table entry agrees with the store
under its prefixed key, the before and after slices touch the same state
keys, before-table keys are duplicate-free, the batch is non-empty, and
the operation rows are fresh), persisting the after-slice and the
operation rows with save_op_state_batch and then rewinding the record
with rollback_op_state_batch returns the store byte-identical on every
key: the state writes are overwritten with the before values (None
becoming a delete), and every opdata and oplist row of the batch is
deleted back to its fresh absent state. -/
theorem rollback_after_save_restores_store
    (r : DataRollbackType) (ops : List DataOperationType)
    (ma : DataStateMapType) (st0 : KVStore)
    (hops : ops ≠ [])
    (hsc : r.op_score_list = ops.map DataOperationType.op_score)
    (htx : r.tx_id_list = ops.map DataOperationType.tx_id)
    (hndT : ((r.state_map_before.state_token_map).map Prod.fst).Nodup)
    (hndB : ((r.state_map_before.state_balance_map).map Prod.fst).Nodup)
    (hndM : ((r.state_map_before.state_market_map).map Prod.fst).Nodup)
    (hndK : ((r.state_map_before.state_blacklist_map).map Prod.fst).Nodup)
    (hdomT : (r.state_map_before.state_token_map).map Prod.fst
      = ma.state_token_map.map Prod.fst)
    (hdomB : (r.state_map_before.state_balance_map).map Prod.fst
      = ma.state_balance_map.map Prod.fst)
    (hdomM : (r.state_map_before.state_market_map).map Prod.fst
      = ma.state_market_map.map Prod.fst)
    (hdomK : (r.state_map_before.state_blacklist_map).map Prod.fst
      = ma.state_blacklist_map.map Prod.fst)
    (hagrT : ∀ kk vo, (kk, vo) ∈ r.state_map_before.state_token_map →
      st0 (keyToken kk) = vo.map KVal.token)
    (hagrB : ∀ kk vo, (kk, vo) ∈ r.state_map_before.state_balance_map →
      st0 (keyBalance kk) = vo.map KVal.balance)
    (hagrM : ∀ kk vo, (kk, vo) ∈ r.state_map_before.state_market_map →
      st0 (keyMarket kk) = vo.map KVal.market)
    (hagrK : ∀ kk vo, (kk, vo) ∈ r.state_map_before.state_blacklist_map →
      st0 (keyBlacklist kk) = vo.map KVal.blacklist)
    (hfresh : ∀ op ∈ ops, st0 (keyOpdata op.tx_id) = none
      ∧ st0 (keyOplist op.op_score) = none) :
    rollback_op_state_batch r (save_op_state_batch ops ma st0) = some st0 := by
  unfold rollback_op_state_batch
  rw [if_neg (by simp [hsc, hops])]
  rw [if_neg (by simp [hsc, htx])]
  refine congrArg some ?_
  funext k
  unfold delete_op_data_batch_rocks
  by_cases hdtx : ∃ op ∈ ops, keyOpdata op.tx_id = k
  · obtain ⟨op, hop, hk⟩ := hdtx
    rw [htx]
    rw [delOpdata_mem _ _ _ ⟨op.tx_id, List.mem_map_of_mem _ hop, hk⟩]
    rw [← hk]
    exact ((hfresh op hop).1).symm
  · have hdtx2 : ∀ tx ∈ ops.map DataOperationType.tx_id, keyOpdata tx ≠ k := by
      intro tx htx2 he
      obtain ⟨op, hop, h1⟩ := List.mem_map.mp htx2
      exact hdtx ⟨op, hop, h1 ▸ he⟩
    rw [htx, delOpdata_untouched _ _ _ hdtx2]
    by_cases hdsc : ∃ op ∈ ops, keyOplist op.op_score = k
    · obtain ⟨op, hop, hk⟩ := hdsc
      rw [hsc]
      rw [delOplist_mem _ _ _ ⟨op.op_score, List.mem_map_of_mem _ hop, hk⟩]
      rw [← hk]
      exact ((hfresh op hop).2).symm
    · have hdsc2 : ∀ sc ∈ ops.map DataOperationType.op_score, keyOplist sc ≠ k := by
        intro sc hsc2 he
        obtain ⟨op, hop, h1⟩ := List.mem_map.mp hsc2
        exact hdsc ⟨op, hop, h1 ▸ he⟩
      rw [hsc, delOplist_untouched _ _ _ hdsc2]
      unfold save_state_batch_rocks_begin
      by_cases hK : ∃ e ∈ r.state_map_before.state_blacklist_map, keyBlacklist e.1 = k
      · obtain ⟨⟨kk, vo⟩, hmem, hkk⟩ := hK
        dsimp only at hkk
        subst hkk
        rw [applyStateTable_hit _ _ _ _ _ _ keyBlacklist_inj hndK hmem]
        exact (hagrK kk vo hmem).symm
      · rw [applyStateTable_untouched _ _ _ _ _
          (fun e he hke => hK ⟨e, he, hke⟩)]
        by_cases hM : ∃ e ∈ r.state_map_before.state_market_map, keyMarket e.1 = k
        · obtain ⟨⟨kk, vo⟩, hmem, hkk⟩ := hM
          dsimp only at hkk
          subst hkk
          rw [applyStateTable_hit _ _ _ _ _ _ keyMarket_inj hndM hmem]
          exact (hagrM kk vo hmem).symm
        · rw [applyStateTable_untouched _ _ _ _ _
            (fun e he hke => hM ⟨e, he, hke⟩)]
          by_cases hB : ∃ e ∈ r.state_map_before.state_balance_map, keyBalance e.1 = k
          · obtain ⟨⟨kk, vo⟩, hmem, hkk⟩ := hB
            dsimp only at hkk
            subst hkk
            rw [applyStateTable_hit _ _ _ _ _ _ keyBalance_inj hndB hmem]
            exact (hagrB kk vo hmem).symm
          · rw [applyStateTable_untouched _ _ _ _ _
              (fun e he hke => hB ⟨e, he, hke⟩)]
            by_cases hT : ∃ e ∈ r.state_map_before.state_token_map, keyToken e.1 = k
            · obtain ⟨⟨kk, vo⟩, hmem, hkk⟩ := hT
              dsimp only at hkk
              subst hkk
              rw [applyStateTable_hit _ _ _ _ _ _ keyToken_inj hndT hmem]
              exact (hagrT kk vo hmem).symm
            · rw [applyStateTable_untouched _ _ _ _ _
                (fun e he hke => hT ⟨e, he, hke⟩)]
              unfold save_op_state_batch save_op_data_batch_rocks
              rw [putOplist_untouched _ _ _
                (fun op hop he => hdsc ⟨op, hop, he⟩)]
              rw [putOpdata_untouched _ _ _
                (fun op hop he => hdtx ⟨op, hop, he⟩)]
              unfold save_state_batch_rocks_begin
              rw [applyStateTable_untouched _ _ _ _ _ ?hk2]
              case hk2 =>
                intro e he hke
                obtain ⟨e2, he2, h2⟩ := mem_fst_transfer _ _ hdomK e he
                exact hK ⟨e2, he2, h2 ▸ hke⟩
              rw [applyStateTable_untouched _ _ _ _ _ ?hm2]
              case hm2 =>
                intro e he hke
                obtain ⟨e2, he2, h2⟩ := mem_fst_transfer _ _ hdomM e he
                exact hM ⟨e2, he2, h2 ▸ hke⟩
              rw [applyStateTable_untouched _ _ _ _ _ ?hb2]
              case hb2 =>
                intro e he hke
                obtain ⟨e2, he2, h2⟩ := mem_fst_transfer _ _ hdomB e he
                exact hB ⟨e2, he2, h2 ▸ hke⟩
              rw [applyStateTable_untouched _ _ _ _ _ ?ht2]
              case ht2 =>
                intro e he hke
                obtain ⟨e2, he2, h2⟩ := mem_fst_transfer _ _ hdomT e he
                exact hT ⟨e2, he2, h2 ▸ hke⟩

/-- Witness for C8: the persist/rewind pair at the one-operation batch
opC8 over the store st0C8 (which holds exactly the token row of the
before-slice): the rewind returns exactly st0C8. -/
theorem rollback_after_save_restores_store_witness :
    rollback_op_state_batch rbC8 (save_op_state_batch [opC8] maC8 st0C8)
      = some st0C8 := by
  refine rollback_after_save_restores_store rbC8 [opC8] maC8 st0C8
    (by decide) (by decide) (by decide) (by decide) (by decide) (by decide)
    (by decide) (by decide) (by decide) (by decide) (by decide)
    ?agT ?agB ?agM ?agK ?fr
  case agT =>
    intro kk vo h
    simp only [rbC8, mbC8] at h
    rw [List.mem_singleton] at h
    rw [Prod.ext_iff] at h
    obtain ⟨h1, h2⟩ := h
    dsimp only at h1 h2
    subst h1
    subst h2
    decide
  case agB =>
    intro kk vo h
    simp only [rbC8, mbC8] at h
    rw [List.mem_singleton] at h
    rw [Prod.ext_iff] at h
    obtain ⟨h1, h2⟩ := h
    dsimp only at h1 h2
    subst h1
    subst h2
    decide
  case agM =>
    intro kk vo h
    simp [rbC8, mbC8] at h
  case agK =>
    intro kk vo h
    simp [rbC8, mbC8] at h
  case fr =>
    intro op h
    rw [List.mem_singleton] at h
    subst h
    exact ⟨by decide, by decide⟩
